import Mathlib

/-!
Verification of the holistic weekly workout plan generator
(`utils/holistic_planner.py`) against its natural-language specification.

The planner is embedded shallowly:
* MongoDB documents become the `Item` structure (one uniform record whose
  optional fields model the optional dict keys the planner inspects);
* MongoDB collections become `List Item`, and `collection.find(q).limit(n)`
  becomes `(repo.filter (matchesQuery q)).take n`;
* the module-level `template_cache` dict becomes an explicit association
  list threaded through every function that reads or writes it;
* Python's seeded `random` module becomes an `RNG` record: an arbitrary
  deterministic function of the seed, together with the facts the planner
  relies on (a chosen index is in range; a sample is drawn from the
  population with the requested length);
* `datetime.now()` becomes an explicit `now` argument, since only its
  presence in the metadata matters;
* raw user-input dicts become `RawUserData`, a record of optional
  `PyVal` values, so that missing keys and wrongly-typed values are
  representable for the validation claims.
-/

namespace Fitlistic

/-- A Python value as far as `validate_user_data` inspects one: a string,
an int, or a list of strings (date ranges and goal lists). -/
inductive PyVal where
  | vStr (s : String)
  | vInt (n : Int)
  | vListStr (xs : List String)
deriving DecidableEq, Repr

/-- Per-difficulty sets/reps payload of an exercise document
(`difficulty_levels[level]`); the planner reads `sets` and `reps`
with `.get(..., 'N/A')`. -/
structure LevelData where
  sets : Option String := none
  reps : Option String := none
deriving DecidableEq, Repr

/-- A content-repository document.  One uniform record models the
duck-typed dicts: a field the real document lacks is `none` / `[]`,
matching how the planner reads every field with `.get`. -/
structure Item where
  oid : Option Nat := none
  name : Option String := none
  tags : List String := []
  difficulty : Option String := none
  difficulty_levels : List (String × LevelData) := []
  pre_workout : Option Bool := none
  duration_short : Option Int := none
  phases : List String := []
  steps : List String := []
  sequence : List String := []
  instructions : List String := []
  benefits : List String := []
  target_areas : List String := []
  form_cues : List String := []
  target_muscles : List String := []
  equipment_needed : Option String := none
  target_heart_rate : Option String := none
deriving DecidableEq, Repr

/-- The six content-repository collections handed to the planner. -/
structure Collections where
  exercises : List Item := []
  warm_ups : List Item := []
  cool_downs : List Item := []
  stretching : List Item := []
  meditation : List Item := []
  breathwork : List Item := []
deriving DecidableEq, Repr

/-- `collections[collection_name]` for the names the planner uses. -/
def repoFor (colls : Collections) (name : String) : List Item :=
  if name = "exercises" then colls.exercises
  else if name = "warm_ups" then colls.warm_ups
  else if name = "cool_downs" then colls.cool_downs
  else if name = "stretching" then colls.stretching
  else if name = "meditation" then colls.meditation
  else if name = "breathwork" then colls.breathwork
  else []

/-- The raw `user_data` dict: each required key either absent or some value. -/
structure RawUserData where
  weight : Option PyVal := none
  height : Option PyVal := none
  fitness_goals : Option PyVal := none
  experience_level : Option PyVal := none
  preferred_rest_day : Option PyVal := none
  workout_duration : Option PyVal := none
  start_date : Option PyVal := none
  date_range : Option PyVal := none
deriving DecidableEq, Repr

/-- `user_data['experience_level']` as the string the planner treats it as
(validation guarantees it is a string). -/
def experienceLevelOf (u : RawUserData) : String :=
  match u.experience_level with
  | some (.vStr s) => s
  | _ => ""

/-- `user_data['fitness_goals']` (validation guarantees a list). -/
def goalsOf (u : RawUserData) : List String :=
  match u.fitness_goals with
  | some (.vListStr xs) => xs
  | _ => []

/-- `user_data.get('date_range', [])`. -/
def dateRangeOf (u : RawUserData) : List String :=
  match u.date_range with
  | some (.vListStr xs) => xs
  | _ => []

/-- `user_data.get('workout_duration', DEFAULT_WORKOUT_DURATION)`;
the default is 30 (validation guarantees an int is present). -/
def workoutDurationOf (u : RawUserData) : Int :=
  match u.workout_duration with
  | some (.vInt n) => n
  | _ => 30

/-- `date == preferred_rest_day`: a date string equals the stored value
only when that value is the same string. -/
def restDayMatches (pref : Option PyVal) (date : String) : Bool :=
  match pref with
  | some (.vStr s) => s = date
  | _ => false

/-- `DIFFICULTY_LEVELS` constant. -/
def DIFFICULTY_LEVELS : List String := ["beginner", "intermediate", "advanced"]

/-- `WORKOUT_DURATIONS` constant. -/
def WORKOUT_DURATIONS : List Int := [15, 30, 45, 60]

/-- Python `value in list_of_strings`: true only for an equal string. -/
def pyMemStr (v : Option PyVal) (ls : List String) : Bool :=
  match v with
  | some (.vStr s) => ls.contains s
  | _ => false

/-- Python `value in list_of_ints`: true only for an equal int. -/
def pyMemInt (v : Option PyVal) (ls : List Int) : Bool :=
  match v with
  | some (.vInt n) => ls.contains n
  | _ => false

/-- `isinstance(value, list)` for the values we model. -/
def pyIsList (v : Option PyVal) : Bool :=
  match v with
  | some (.vListStr _) => true
  | _ => false

/-- `isinstance(value, list) and len(value) == 7` for `date_range`. -/
def pyIsList7 (v : Option PyVal) : Bool :=
  match v with
  | some (.vListStr xs) => xs.length = 7
  | _ => false

/-- The required-field names missing from `user_data`, in the order
`validate_user_data` lists them. -/
def missingFields (u : RawUserData) : List String :=
  (if u.weight.isNone then ["weight"] else []) ++
  (if u.height.isNone then ["height"] else []) ++
  (if u.fitness_goals.isNone then ["fitness_goals"] else []) ++
  (if u.experience_level.isNone then ["experience_level"] else []) ++
  (if u.preferred_rest_day.isNone then ["preferred_rest_day"] else []) ++
  (if u.workout_duration.isNone then ["workout_duration"] else []) ++
  (if u.start_date.isNone then ["start_date"] else []) ++
  (if u.date_range.isNone then ["date_range"] else [])

/-- `validate_user_data`: raises `ValueError` (modelled as `Except.error`)
exactly as the source does, in the source's order of checks. -/
def validate_user_data (u : RawUserData) : Except String Unit :=
  if !(missingFields u).isEmpty then
    .error ("Missing required fields: " ++ String.intercalate ", " (missingFields u))
  else if !(pyIsList u.fitness_goals) then
    .error "fitness_goals must be a list"
  else if !(pyMemStr u.experience_level DIFFICULTY_LEVELS) then
    .error ("experience_level must be one of: " ++ String.intercalate ", " DIFFICULTY_LEVELS)
  else if !(pyMemInt u.workout_duration WORKOUT_DURATIONS) then
    .error "workout_duration must be one of: [15, 30, 45, 60]"
  else if !(pyIsList7 u.date_range) then
    .error "date_range must be a list of 7 date strings"
  else
    .ok ()

/-- The seeded pseudo-random facilities the planner uses.  Python's
`random` module, once seeded, is a fixed deterministic function of the
seed; we abstract it as any function with the properties the planner
relies on: `random.choice` returns an in-range index, and
`random.sample(xs, k)` (for `k ≤ len(xs)`) returns `k` elements of `xs`. -/
structure RNG where
  choiceIdx : Nat → Nat → Nat
  sample : String → Nat → List Item → List Item
  choice_lt : ∀ seed n, 0 < n → choiceIdx seed n < n
  sample_subset : ∀ seed k xs, ∀ i ∈ sample seed k xs, i ∈ xs
  sample_length : ∀ seed k xs, k ≤ xs.length → (sample seed k xs).length = k

/-- One concrete deterministic instance of `RNG`, used to evaluate the
planner on closed inputs. -/
def rngModel : RNG where
  choiceIdx := fun seed n => seed % n
  sample := fun _ k xs => xs.take k
  choice_lt := fun _ n h => Nat.mod_lt _ h
  sample_subset := fun _ _ xs _ h => List.take_subset _ xs h
  sample_length := fun _ k xs h => by
    simpa [List.length_take] using Nat.min_eq_left h

/-- A MongoDB filter document, one constructor per filter shape the
planner builds. -/
inductive Query where
  | tagsIn (ts : List String)
  | levelExists (lvl : String)
  | tagsInLevelExists (ts : List String) (lvl : String)
  | diffPre (lvl : String)
  | diffEq (lvl : String)
  | diffIn (lvls : List String)
  | diffShort (lvl : String) (bound : Int)
  | diffTagsIn (lvl : String) (ts : List String)
deriving DecidableEq, Repr

/-- `'difficulty_levels.{lvl}': {'$exists': True}` on a document. -/
def hasLevel (i : Item) (lvl : String) : Bool :=
  (List.lookup lvl i.difficulty_levels).isSome

/-- Whether a document matches a filter (`$in` on the array field `tags`
matches when any element of the document's array is in the given list;
an equality or `$lte` test on a missing field matches nothing). -/
def matchesQuery : Query → Item → Bool
  | .tagsIn ts, i => i.tags.any (fun t => ts.contains t)
  | .levelExists l, i => hasLevel i l
  | .tagsInLevelExists ts l, i => i.tags.any (fun t => ts.contains t) && hasLevel i l
  | .diffPre l, i => i.difficulty == some l && i.pre_workout == some true
  | .diffEq l, i => i.difficulty == some l
  | .diffIn ls, i =>
      match i.difficulty with
      | some d => ls.contains d
      | none => false
  | .diffShort l b, i =>
      i.difficulty == some l &&
        (match i.duration_short with
         | some d => decide (d ≤ b)
         | none => false)
  | .diffTagsIn l ts, i => i.difficulty == some l && i.tags.any (fun t => ts.contains t)

/-- `execute_query_with_fallbacks`: run the queries in order, return the
first non-empty result; as a last resort return any documents
(`collection.find().limit(limit)`). -/
def execute_query_with_fallbacks (repo : List Item) : List Query → Nat → List Item
  | [], limit => repo.take limit
  | q :: qs, limit =>
    let results := (repo.filter (matchesQuery q)).take limit
    if results.isEmpty then execute_query_with_fallbacks repo qs limit else results

/-- The goal → tags table for the `exercises` collection. -/
def exercisesGoalTags : String → Option (List String)
  | "Muscle Gain" => some ["push", "upper-body", "compound", "strength"]
  | "Weight Loss" => some ["hiit", "full-body", "cardio"]
  | "General Fitness" => some ["functional", "bodyweight", "compound", "general"]
  | "Flexibility" => some ["bodyweight", "functional", "mobility"]
  | "Better Mental Health" => some ["bodyweight", "functional"]
  | "Stress Resilience" => some ["functional", "bodyweight"]
  | _ => none

/-- The goal → tags table for the `breathwork` collection. -/
def breathworkGoalTags : String → Option (List String)
  | "General Fitness" => some ["hiit", "recovery", "foam-rolling", "stretching"]
  | "Weight Loss" => some ["hiit", "recovery", "foam-rolling", "stretching"]
  | "Better Mental Health" => some ["recovery", "foam-rolling"]
  | "Flexibility" => some ["recovery", "stretching"]
  | "Stress Resilience" => some ["recovery", "relaxation"]
  | "Muscle Gain" => some ["recovery", "power"]
  | _ => none

/-- The goal → tags table for the `meditation` collection. -/
def meditationGoalTags : String → Option (List String)
  | "Better Mental Health" => some ["mindfulness", "relaxation", "anxiety-reduction", "awareness"]
  | "Stress Resilience" => some ["relaxation", "anxiety-reduction", "awareness"]
  | "General Fitness" => some ["mindfulness", "relaxation"]
  | "Flexibility" => some ["mindfulness", "body-awareness"]
  | "Weight Loss" => some ["focus", "discipline"]
  | "Muscle Gain" => some ["focus", "visualization"]
  | _ => none

/-- The goal → tags table for the `stretching` collection. -/
def stretchingGoalTags : String → Option (List String)
  | "Flexibility" => some ["morning", "mobility", "wake-up", "energizing"]
  | "General Fitness" => some ["mobility", "functional"]
  | "Weight Loss" => some ["full-body", "active"]
  | "Better Mental Health" => some ["relaxation", "mindful"]
  | "Stress Resilience" => some ["relaxation", "recovery"]
  | "Muscle Gain" => some ["recovery", "muscle-specific"]
  | _ => none

/-- The goal → tags table for the `cool_downs` collection. -/
def coolDownsGoalTags : String → Option (List String)
  | "General Fitness" => some ["general", "basic", "relaxation", "recovery"]
  | "Weight Loss" => some ["general", "basic", "relaxation", "recovery"]
  | "Flexibility" => some ["stretching", "mobility"]
  | "Better Mental Health" => some ["relaxation", "mindful"]
  | "Stress Resilience" => some ["relaxation", "recovery"]
  | "Muscle Gain" => some ["recovery", "gentle"]
  | _ => none

/-- The goal → tags table for the `warm_ups` collection. -/
def warmUpsGoalTags : String → Option (List String)
  | "General Fitness" => some ["general", "foundational", "no-equipment", "scalable"]
  | "Muscle Gain" => some ["strength", "activation", "mobility", "preparation"]
  | "Weight Loss" => some ["cardio", "full-body", "hiit"]
  | "Flexibility" => some ["mobility", "dynamic"]
  | "Better Mental Health" => some ["energizing", "focus"]
  | "Stress Resilience" => some ["grounding", "energizing"]
  | _ => none

/-- Look up a collection's goal table (`mapping[collection][goal]`). -/
def goalTagsFor (collection goal : String) : Option (List String) :=
  if collection = "exercises" then exercisesGoalTags goal
  else if collection = "breathwork" then breathworkGoalTags goal
  else if collection = "meditation" then meditationGoalTags goal
  else if collection = "stretching" then stretchingGoalTags goal
  else if collection = "cool_downs" then coolDownsGoalTags goal
  else if collection = "warm_ups" then warmUpsGoalTags goal
  else none

/-- `DEFAULT_TAGS` fallback table. -/
def defaultTagsFor (collection : String) : List String :=
  if collection = "exercises" then ["functional", "bodyweight", "compound", "general"]
  else if collection = "breathwork" then ["recovery", "relaxation"]
  else if collection = "meditation" then ["mindfulness", "relaxation"]
  else if collection = "stretching" then ["general", "full-body"]
  else if collection = "cool_downs" then ["general", "basic"]
  else if collection = "warm_ups" then ["general", "basic"]
  else []

/-- `map_goals_to_valid_tags(goals)[collection]`: every goal contributes
its table row, or the collection's default tags when it has no row; an
empty accumulation is replaced by the defaults; the result is
deduplicated (`list(set(tags))` — the order of the deduplicated list is
irrelevant downstream, where tags are only used for membership tests). -/
def map_goals_to_valid_tags (goals : List String) (collection : String) : List String :=
  let tags := (goals.map (fun g =>
    match goalTagsFor collection g with
    | some ts => ts
    | none => defaultTagsFor collection)).flatten
  let tags2 := if tags.isEmpty then defaultTagsFor collection else tags
  if tags2.isEmpty then [] else tags2.eraseDups

/-- The module-level `template_cache` dict. -/
abbrev Cache := List (String × List Item)

/-- The cache read/write pattern shared by every caching fetcher:
return the stored value on a hit, otherwise store and return the
freshly computed one. -/
def cached_fetch (key : String) (val : List Item) (c : Cache) : List Item × Cache :=
  match List.lookup key c with
  | some v => (v, c)
  | none => (val, (key, val) :: c)

/-- `'-'.join(sorted(fitness_goals))` as used in cache keys. -/
def sortedGoalsKey (goals : List String) : String :=
  String.intercalate "-" (goals.insertionSort (· ≤ ·))

/-- The fallback queries `fetch_breathwork` builds (entries that are
`None` in the Python list are dropped). -/
def breathworkQueries (level : String) : List Query :=
  ([some (.diffPre level),
    if level = "advanced" then some (.diffPre "intermediate") else none,
    if level = "advanced" ∨ level = "intermediate" then some (.diffPre "beginner") else none,
    some (.diffIn ["beginner", "intermediate", "advanced"])]).reduceOption

/-- `fetch_breathwork`. -/
def fetch_breathwork (level : String) (colls : Collections) (day_date : String)
    (c : Cache) : List Item × Cache :=
  cached_fetch ("breathwork_" ++ level ++ "_" ++ day_date)
    (execute_query_with_fallbacks colls.breathwork (breathworkQueries level) 3) c

/-- The fallback queries `fetch_meditations` builds. -/
def meditationQueries (level : String) : List Query :=
  ([some (.diffShort level 15),
    if level = "advanced" then some (.diffShort "intermediate" 15) else none,
    if level = "advanced" ∨ level = "intermediate" then some (.diffShort "beginner" 15) else none,
    some (.diffIn ["beginner", "intermediate", "advanced"])]).reduceOption

/-- `fetch_meditations`. -/
def fetch_meditations (level : String) (colls : Collections) (day_date : String)
    (c : Cache) : List Item × Cache :=
  cached_fetch ("meditation_" ++ level ++ "_" ++ day_date)
    (execute_query_with_fallbacks colls.meditation (meditationQueries level) 3) c

/-- The fallback queries `fetch_stretching` builds: tags+level, level
alone, then adjacent-level fallbacks — there is no tags-alone step. -/
def stretchingQueries (level : String) (tags : List String) : List Query :=
  ([some (.diffTagsIn level tags),
    some (.diffEq level),
    if level = "advanced" then some (.diffEq "intermediate") else none,
    if level = "advanced" ∨ level = "intermediate" then some (.diffEq "beginner") else none]).reduceOption

/-- `fetch_stretching`. -/
def fetch_stretching (u : RawUserData) (colls : Collections) (day_date : String)
    (c : Cache) : List Item × Cache :=
  let level := experienceLevelOf u
  cached_fetch ("stretching_" ++ level ++ "_" ++ sortedGoalsKey (goalsOf u) ++ "_" ++ day_date)
    (execute_query_with_fallbacks colls.stretching
      (stretchingQueries level (map_goals_to_valid_tags (goalsOf u) "stretching")) 3) c

/-- The fallback queries `fetch_routine_by_level_and_tags` builds:
tags+level, tags alone, level alone, then adjacent-level fallbacks. -/
def routineQueries (level : String) (tags : List String) : List Query :=
  ([some (.tagsInLevelExists tags level),
    some (.tagsIn tags),
    some (.levelExists level),
    if level = "advanced" then some (.levelExists "intermediate") else none,
    if level = "advanced" ∨ level = "intermediate" then some (.levelExists "beginner") else none]).reduceOption

/-- `fetch_routine_by_level_and_tags` (used for warm-ups and cool-downs). -/
def fetch_routine_by_level_and_tags (collection_name : String) (u : RawUserData)
    (colls : Collections) (day_date : String) (c : Cache) : List Item × Cache :=
  let level := experienceLevelOf u
  cached_fetch (collection_name ++ "_" ++ level ++ "_" ++ sortedGoalsKey (goalsOf u) ++ "_" ++ day_date)
    (execute_query_with_fallbacks (repoFor colls collection_name)
      (routineQueries level (map_goals_to_valid_tags (goalsOf u) collection_name)) 3) c

/-- `fetch_warm_ups`. -/
def fetch_warm_ups (u : RawUserData) (colls : Collections) (day_date : String)
    (c : Cache) : List Item × Cache :=
  fetch_routine_by_level_and_tags "warm_ups" u colls day_date c

/-- `fetch_cool_downs`. -/
def fetch_cool_downs (u : RawUserData) (colls : Collections) (day_date : String)
    (c : Cache) : List Item × Cache :=
  fetch_routine_by_level_and_tags "cool_downs" u colls day_date c

/-- The fallback queries `fetch_exercises` builds: the goal tags are kept
in the adjacent-level fallbacks, and the untagged query filters on the
requested level. -/
def exerciseQueries (level : String) (tags : List String) : List Query :=
  ([some (.tagsInLevelExists tags level),
    if level = "advanced" then some (.tagsInLevelExists tags "intermediate") else none,
    if level = "advanced" ∨ level = "intermediate" then some (.tagsInLevelExists tags "beginner") else none,
    some (.levelExists level)]).reduceOption

/-- `fetch_exercises`: uncached; after the fallback queries it draws a
seeded `random.sample` of at most 5 of the results. -/
def fetch_exercises (rng : RNG) (u : RawUserData) (colls : Collections)
    (day_date : String) : List Item :=
  let level := experienceLevelOf u
  let exercises := execute_query_with_fallbacks colls.exercises
    (exerciseQueries level (map_goals_to_valid_tags (goalsOf u) "exercises")) 5
  if exercises.isEmpty then []
  else rng.sample (day_date ++ "_" ++ level) (min 5 exercises.length) exercises

/-- `sum(ord(c) for c in day_date)`: the per-day seed base. -/
def daySeed (day_date : String) : Nat :=
  day_date.data.foldl (fun a c => a + c.toNat) 0

/-- `select_activity_with_seed`: `None` on an empty list, otherwise the
element at the index the seeded generator picks. -/
def select_activity_with_seed (rng : RNG) (activities : List Item)
    (seed_base offset : Nat) : Option Item :=
  if h : activities.length = 0 then none
  else some (activities.get
    ⟨rng.choiceIdx (seed_base + offset) activities.length,
     rng.choice_lt _ _ (Nat.pos_of_ne_zero h)⟩)

/-- The per-exercise detail dict built by `prepare_exercise_components`. -/
structure ExerciseEntry where
  name : String := ""
  form_cues : List String := []
  sets : String := ""
  reps : String := ""
  target_muscles : List String := []
deriving DecidableEq, Repr

/-- The `activity` snapshot of a scheduled block.  One uniform record
models the per-category dicts; a key a category's snapshot lacks is the
default value. -/
structure Activity where
  oid : Option Nat := none
  name : String := ""
  type : String := ""
  phases : List String := []
  steps : List String := []
  sequence : List String := []
  instructions : List String := []
  benefits : List String := []
  target_areas : List String := []
  equipment_needed : String := ""
  target_heart_rate : String := ""
  exercises : List ExerciseEntry := []
deriving DecidableEq, Repr

/-- A `ScheduledBlock`: `{'activity': ..., 'duration': minutes}`. -/
structure Block where
  activity : Activity
  duration : Int
deriving DecidableEq, Repr

/-- `prepare_warmup_component`. -/
def prepare_warmup_component (rng : RNG) (warmups : List Item)
    (seed_base : Nat) (warmup_time : Int) : Option Block :=
  match select_activity_with_seed rng warmups seed_base 0 with
  | none => none
  | some w => some
    { activity :=
      { oid := w.oid
        name := w.name.getD "Warm-Up"
        phases := w.phases
        instructions := w.instructions
        benefits := w.benefits
        target_areas := w.target_areas
        type := "warm_up"
        equipment_needed := w.equipment_needed.getD "None"
        target_heart_rate := w.target_heart_rate.getD "" }
      duration := warmup_time }

/-- `prepare_breathwork_component`. -/
def prepare_breathwork_component (rng : RNG) (breathwork_list : List Item)
    (seed_base : Nat) (breathwork_time : Int) : Option Block :=
  match select_activity_with_seed rng breathwork_list seed_base 1 with
  | none => none
  | some b => some
    { activity :=
      { oid := b.oid
        name := b.name.getD "Breathwork"
        steps := b.steps
        instructions := b.instructions
        benefits := b.benefits
        type := "breathwork" }
      duration := breathwork_time }

/-- `prepare_stretching_component`. -/
def prepare_stretching_component (rng : RNG) (stretching_list : List Item)
    (seed_base : Nat) (stretching_time : Int) : Option Block :=
  match select_activity_with_seed rng stretching_list seed_base 2 with
  | none => none
  | some s => some
    { activity :=
      { oid := s.oid
        name := s.name.getD "Stretching"
        sequence := s.sequence
        instructions := s.instructions
        benefits := s.benefits
        target_areas := s.target_areas
        type := "stretching" }
      duration := stretching_time }

/-- `prepare_cooldown_component`. -/
def prepare_cooldown_component (rng : RNG) (cooldowns : List Item)
    (seed_base : Nat) (cooldown_time : Int) : Option Block :=
  match select_activity_with_seed rng cooldowns seed_base 3 with
  | none => none
  | some cd => some
    { activity :=
      { oid := cd.oid
        name := cd.name.getD "Cool-Down"
        phases := cd.phases
        instructions := cd.instructions
        benefits := cd.benefits
        target_areas := cd.target_areas
        type := "cool_down"
        equipment_needed := cd.equipment_needed.getD "None"
        target_heart_rate := cd.target_heart_rate.getD "" }
      duration := cooldown_time }

/-- `prepare_meditation_component`. -/
def prepare_meditation_component (rng : RNG) (meditations : List Item)
    (seed_base : Nat) (meditation_time : Int) : Option Block :=
  match select_activity_with_seed rng meditations seed_base 4 with
  | none => none
  | some m => some
    { activity :=
      { oid := m.oid
        name := m.name.getD "Meditation"
        steps := m.steps
        benefits := m.benefits
        type := "meditation" }
      duration := meditation_time }

/-- The difficulty level `prepare_exercise_components` resolves for one
item: the requested level when present; else intermediate when the
request is advanced and intermediate is present; else beginner when
present; else the item's first-listed level key (`next(iter(...))`),
or `none` when the item has no levels at all. -/
def effectiveLevelOf (ex : Item) (difficulty_level : String) : Option String :=
  if hasLevel ex difficulty_level then some difficulty_level
  else if hasLevel ex "intermediate" && difficulty_level == "advanced" then some "intermediate"
  else if hasLevel ex "beginner" then some "beginner"
  else (ex.difficulty_levels.head?).map Prod.fst

/-- `prepare_exercise_components`: at most `max_count` leading items;
an item for which no (truthy) level resolves is skipped. -/
def prepare_exercise_components (exercises : List Item) (time_per_exercise : Int)
    (difficulty_level : String) (max_count : Nat) : List Block :=
  (exercises.take (min exercises.length max_count)).filterMap (fun ex =>
    match effectiveLevelOf ex difficulty_level with
    | none => none
    | some l =>
      if l.isEmpty then none
      else
        let ld := (List.lookup l ex.difficulty_levels).getD {}
        some
          { activity :=
            { oid := ex.oid
              name := ex.name.getD "Unnamed Exercise"
              exercises :=
                [{ name := ex.name.getD "Unnamed Exercise"
                   form_cues := ex.form_cues
                   sets := ld.sets.getD "N/A"
                   reps := ld.reps.getD "N/A"
                   target_muscles := ex.target_muscles }]
              type := "exercise" }
            duration := time_per_exercise })

/-- The per-component minute budgets for a total workout time
(`get_component_durations`). -/
structure Durations where
  warmup_time : Int
  breathwork_time : Int
  cooldown_time : Int
  meditation_time : Int
  stretching_time : Int
  max_exercises : Nat
  include_stretching : Bool
  include_breathwork : Bool
deriving DecidableEq, Repr

/-- `get_component_durations`: clamp the total into [15, 60] (the min and
max of `WORKOUT_DURATIONS`), then look each component up in its per-bucket
table, with the `dict.get` defaults for off-bucket values. -/
def get_component_durations (total_workout_time : Int) : Durations :=
  let wt := min (max total_workout_time 15) 60
  let warmup : Int := if wt = 15 then 4 else if wt = 30 then 5 else if wt = 45 then 5
    else if wt = 60 then 7 else 5
  let breath : Int := if wt = 15 then 0 else if wt = 30 then 3 else if wt = 45 then 5
    else if wt = 60 then 5 else 0
  let cool : Int := if wt = 15 then 4 else if wt = 30 then 5 else if wt = 45 then 5
    else if wt = 60 then 7 else 5
  let med : Int := if wt = 15 then 3 else if wt = 30 then 5 else if wt = 45 then 5
    else if wt = 60 then 7 else 5
  let stretch : Int := if wt = 60 then 10 else 0
  let maxEx : Nat := if wt = 15 then 2 else if wt = 30 then 2 else if wt = 45 then 4
    else if wt = 60 then 4 else 2
  { warmup_time := warmup
    breathwork_time := breath
    cooldown_time := cool
    meditation_time := med
    stretching_time := stretch
    max_exercises := maxEx
    include_stretching := decide (0 < stretch)
    include_breathwork := decide (0 < breath) }

/-- The `schedule_template` slots of `create_day_schedule`, filled in
fetch order. -/
structure DayParts where
  warm_up : Option Block
  breathwork : Option Block
  main_exercises : List Block
  stretching : Option Block
  cool_down : Option Block
  meditation : Option Block
deriving DecidableEq, Repr

/-- The `auxiliary_time` sum of `create_day_schedule`: warm-up and
breathwork minutes only when those components were prepared, cool-down
and meditation minutes always, stretching minutes when stretching is
included at this duration. -/
def auxiliary_time (d : Durations) (hasWarm hasBreath : Bool) : Int :=
  (if hasWarm then d.warmup_time else 0) +
  (if hasBreath then d.breathwork_time else 0) +
  d.cooldown_time + d.meditation_time +
  (if d.include_stretching then d.stretching_time else 0)

/-- The body of `create_day_schedule` for a workout day: all six fetches
(threading the cache through the caching ones, in source order), the
seeded selections, and the exercise time allocation. -/
def build_day_parts (rng : RNG) (u : RawUserData) (colls : Collections)
    (day_date : String) (c : Cache) : DayParts × Cache :=
  let total := workoutDurationOf u
  let d := get_component_durations total
  let seed := daySeed day_date
  let fw := fetch_warm_ups u colls day_date c
  let warmComp := if fw.1.isEmpty then none
    else prepare_warmup_component rng fw.1 seed d.warmup_time
  let fb := if d.include_breathwork
    then fetch_breathwork (experienceLevelOf u) colls day_date fw.2 else ([], fw.2)
  let breathComp := if d.include_breathwork && !fb.1.isEmpty
    then prepare_breathwork_component rng fb.1 seed d.breathwork_time else none
  let main_exercises := fetch_exercises rng u colls day_date
  let auxT := auxiliary_time d warmComp.isSome breathComp.isSome
  let remaining_time := total - auxT
  let exercise_count := min main_exercises.length d.max_exercises
  let mains := if 0 < exercise_count
    then prepare_exercise_components main_exercises
      (max 5 (Int.fdiv remaining_time (exercise_count : Int)))
      (experienceLevelOf u) exercise_count
    else []
  let fs := if d.include_stretching
    then fetch_stretching u colls day_date fb.2 else ([], fb.2)
  let stretchComp := if d.include_stretching && !fs.1.isEmpty
    then prepare_stretching_component rng fs.1 seed d.stretching_time else none
  let fc := fetch_cool_downs u colls day_date fs.2
  let coolComp := if fc.1.isEmpty then none
    else prepare_cooldown_component rng fc.1 seed d.cooldown_time
  let fm := fetch_meditations (experienceLevelOf u) colls day_date fc.2
  let medComp := if fm.1.isEmpty then none
    else prepare_meditation_component rng fm.1 seed d.meditation_time
  ({ warm_up := warmComp
     breathwork := breathComp
     main_exercises := mains
     stretching := stretchComp
     cool_down := coolComp
     meditation := medComp }, fm.2)

/-- The final block list of a day, in the source's fixed order. -/
def assemble_day (p : DayParts) : List Block :=
  p.warm_up.toList ++ p.breathwork.toList ++ p.main_exercises ++
  p.stretching.toList ++ p.cool_down.toList ++ p.meditation.toList

/-- `create_day_schedule`: an empty list on a rest day, otherwise the
assembled parts. -/
def create_day_schedule (rng : RNG) (u : RawUserData) (colls : Collections)
    (is_rest_day : Bool) (day_date : String) (c : Cache) : List Block × Cache :=
  if is_rest_day then ([], c)
  else
    let p := build_day_parts rng u colls day_date c
    (assemble_day p.1, p.2)

/-- One day's entry of the weekly schedule. -/
structure DayEntry where
  type : String
  schedule : List Block
deriving DecidableEq, Repr

/-- The loop of `create_weekly_schedule` over `date_range`, building the
schedule dict in insertion order. -/
def schedule_days (rng : RNG) (u : RawUserData) (colls : Collections) :
    List String → Cache → List (String × DayEntry) × Cache
  | [], c => ([], c)
  | date :: rest, c =>
    let is_rest_day := restDayMatches u.preferred_rest_day date
    let day := create_day_schedule rng u colls is_rest_day date c
    let tail := schedule_days rng u colls rest day.2
    ((date, { type := if is_rest_day then "Rest Day" else "Workout Day"
              schedule := day.1 }) :: tail.1, tail.2)

/-- `create_weekly_schedule`. -/
def create_weekly_schedule (rng : RNG) (u : RawUserData) (colls : Collections)
    (c : Cache) : List (String × DayEntry) × Cache :=
  schedule_days rng u colls (dateRangeOf u) c

/-- The `metadata` record of a generated plan. -/
structure Metadata where
  generated_at : String
  start_date : Option PyVal
  goals : List String
  level : String
  preferred_rest_day : Option PyVal
deriving DecidableEq, Repr

/-- A generated `WeeklyPlan`. -/
structure Plan where
  metadata : Metadata
  schedule : List (String × DayEntry)
deriving DecidableEq, Repr

/-- `generate_weekly_plan`: validate, then build the weekly schedule and
wrap it in metadata.  `now` stands for `datetime.now().isoformat()`;
the cache is the module-level `template_cache` before the call, and the
second component of the result is its state after the call. -/
def generate_weekly_plan (rng : RNG) (u : RawUserData) (colls : Collections)
    (c : Cache) (now : String) : Except String (Plan × Cache) :=
  match validate_user_data u with
  | .error e => .error e
  | .ok _ =>
    let w := create_weekly_schedule rng u colls c
    .ok
      ({ metadata :=
         { generated_at := now
           start_date := u.start_date
           goals := goalsOf u
           level := experienceLevelOf u
           preferred_rest_day := u.preferred_rest_day }
         schedule := w.1 }, w.2)

/-! ### Cache lemmas -/

/-- `c'` extends `c`: every stored entry of `c` is stored unchanged in `c'`.
The planner's cache discipline (look up before insert, never delete)
only ever extends the cache. -/
def Ext (c c' : Cache) : Prop :=
  ∀ k v, List.lookup k c = some v → List.lookup k c' = some v

theorem Ext.refl (c : Cache) : Ext c c := fun _ _ h => h

theorem Ext.trans {a b c : Cache} (h1 : Ext a b) (h2 : Ext b c) : Ext a c :=
  fun k v h => h2 k v (h1 k v h)

theorem cached_fetch_ext (key : String) (val : List Item) (c : Cache) :
    Ext c (cached_fetch key val c).2 := by
  unfold cached_fetch
  cases hl : List.lookup key c with
  | some v => exact Ext.refl c
  | none =>
    intro k w hw
    by_cases hk : k = key
    · subst hk; rw [hw] at hl; cases hl
    · have hbe : (k == key) = false := beq_eq_false_iff_ne.mpr hk
      simpa [List.lookup, hbe] using hw

theorem cached_fetch_recorded (key : String) (val : List Item) (c : Cache) :
    List.lookup key (cached_fetch key val c).2 = some (cached_fetch key val c).1 := by
  unfold cached_fetch
  cases hl : List.lookup key c with
  | some v => simpa using hl
  | none => simp [List.lookup]

theorem cached_fetch_hit {key : String} {c : Cache} {v : List Item}
    (h : List.lookup key c = some v) (val : List Item) :
    cached_fetch key val c = (v, c) := by
  unfold cached_fetch; rw [h]

/-- Once a `cached_fetch` has run, re-running it from any extension of its
post-state is a cache hit returning the same value and leaving the cache
unchanged. -/
theorem cached_fetch_stable {key : String} {val : List Item} {c c' : Cache}
    (h : Ext (cached_fetch key val c).2 c') (val' : List Item) :
    cached_fetch key val' c' = ((cached_fetch key val c).1, c') :=
  cached_fetch_hit (h key _ (cached_fetch_recorded key val c)) val'

theorem fetch_warm_ups_ext (u : RawUserData) (colls : Collections)
    (day : String) (c : Cache) : Ext c (fetch_warm_ups u colls day c).2 :=
  cached_fetch_ext _ _ _

theorem fetch_warm_ups_stable {u : RawUserData} {colls : Collections}
    {day : String} {c c' : Cache}
    (h : Ext (fetch_warm_ups u colls day c).2 c') :
    fetch_warm_ups u colls day c' = ((fetch_warm_ups u colls day c).1, c') :=
  cached_fetch_stable h _

theorem fetch_cool_downs_ext (u : RawUserData) (colls : Collections)
    (day : String) (c : Cache) : Ext c (fetch_cool_downs u colls day c).2 :=
  cached_fetch_ext _ _ _

theorem fetch_cool_downs_stable {u : RawUserData} {colls : Collections}
    {day : String} {c c' : Cache}
    (h : Ext (fetch_cool_downs u colls day c).2 c') :
    fetch_cool_downs u colls day c' = ((fetch_cool_downs u colls day c).1, c') :=
  cached_fetch_stable h _

theorem fetch_breathwork_ext (level : String) (colls : Collections)
    (day : String) (c : Cache) : Ext c (fetch_breathwork level colls day c).2 :=
  cached_fetch_ext _ _ _

theorem fetch_breathwork_stable {level : String} {colls : Collections}
    {day : String} {c c' : Cache}
    (h : Ext (fetch_breathwork level colls day c).2 c') :
    fetch_breathwork level colls day c' = ((fetch_breathwork level colls day c).1, c') :=
  cached_fetch_stable h _

theorem fetch_meditations_ext (level : String) (colls : Collections)
    (day : String) (c : Cache) : Ext c (fetch_meditations level colls day c).2 :=
  cached_fetch_ext _ _ _

theorem fetch_meditations_stable {level : String} {colls : Collections}
    {day : String} {c c' : Cache}
    (h : Ext (fetch_meditations level colls day c).2 c') :
    fetch_meditations level colls day c' = ((fetch_meditations level colls day c).1, c') :=
  cached_fetch_stable h _

theorem fetch_stretching_ext (u : RawUserData) (colls : Collections)
    (day : String) (c : Cache) : Ext c (fetch_stretching u colls day c).2 :=
  cached_fetch_ext _ _ _

theorem fetch_stretching_stable {u : RawUserData} {colls : Collections}
    {day : String} {c c' : Cache}
    (h : Ext (fetch_stretching u colls day c).2 c') :
    fetch_stretching u colls day c' = ((fetch_stretching u colls day c).1, c') :=
  cached_fetch_stable h _

/-! ### Day- and week-level cache stability -/

theorem build_day_parts_ext (rng : RNG) (u : RawUserData) (colls : Collections)
    (day : String) (c : Cache) : Ext c (build_day_parts rng u colls day c).2 := by
  cases hbi : (get_component_durations (workoutDurationOf u)).include_breathwork with
  | false =>
    cases hsi : (get_component_durations (workoutDurationOf u)).include_stretching with
    | false =>
      simp only [build_day_parts, hbi, hsi, Bool.false_eq_true, ite_false]
      exact (fetch_warm_ups_ext u colls day c).trans
        ((fetch_cool_downs_ext u colls day _).trans (fetch_meditations_ext _ colls day _))
    | true =>
      simp only [build_day_parts, hbi, hsi, Bool.false_eq_true, ite_false, ite_true]
      exact (fetch_warm_ups_ext u colls day c).trans
        ((fetch_stretching_ext u colls day _).trans
          ((fetch_cool_downs_ext u colls day _).trans (fetch_meditations_ext _ colls day _)))
  | true =>
    cases hsi : (get_component_durations (workoutDurationOf u)).include_stretching with
    | false =>
      simp only [build_day_parts, hbi, hsi, Bool.false_eq_true, ite_false, ite_true]
      exact (fetch_warm_ups_ext u colls day c).trans
        ((fetch_breathwork_ext _ colls day _).trans
          ((fetch_cool_downs_ext u colls day _).trans (fetch_meditations_ext _ colls day _)))
    | true =>
      simp only [build_day_parts, hbi, hsi, ite_true]
      exact (fetch_warm_ups_ext u colls day c).trans
        ((fetch_breathwork_ext _ colls day _).trans
          ((fetch_stretching_ext u colls day _).trans
            ((fetch_cool_downs_ext u colls day _).trans (fetch_meditations_ext _ colls day _))))

/-- Re-running a day's fetch pipeline from any extension of its post-state
cache reproduces the same parts and leaves the cache unchanged: every
caching fetch becomes a hit on the entry the first run recorded, and the
uncached exercise fetch is a pure function of its inputs. -/
theorem build_day_parts_stable {rng : RNG} {u : RawUserData} {colls : Collections}
    {day : String} {c c' : Cache}
    (h : Ext (build_day_parts rng u colls day c).2 c') :
    build_day_parts rng u colls day c' = ((build_day_parts rng u colls day c).1, c') := by
  cases hbi : (get_component_durations (workoutDurationOf u)).include_breathwork with
  | false =>
    cases hsi : (get_component_durations (workoutDurationOf u)).include_stretching with
    | false =>
      have hB : (build_day_parts rng u colls day c).2 =
          (fetch_meditations (experienceLevelOf u) colls day
            (fetch_cool_downs u colls day
              (fetch_warm_ups u colls day c).2).2).2 := by
        simp only [build_day_parts, hbi, hsi, Bool.false_eq_true, ite_false]
      rw [hB] at h
      have x4 : Ext (fetch_cool_downs u colls day (fetch_warm_ups u colls day c).2).2 c' :=
        (fetch_meditations_ext _ colls day _).trans h
      have x1 : Ext (fetch_warm_ups u colls day c).2 c' :=
        (fetch_cool_downs_ext u colls day _).trans x4
      simp only [build_day_parts, hbi, hsi, Bool.false_eq_true, ite_false,
        fetch_warm_ups_stable x1, fetch_cool_downs_stable x4, fetch_meditations_stable h]
    | true =>
      have hB : (build_day_parts rng u colls day c).2 =
          (fetch_meditations (experienceLevelOf u) colls day
            (fetch_cool_downs u colls day
              (fetch_stretching u colls day
                (fetch_warm_ups u colls day c).2).2).2).2 := by
        simp only [build_day_parts, hbi, hsi, Bool.false_eq_true, ite_false, ite_true]
      rw [hB] at h
      have x4 : Ext (fetch_cool_downs u colls day
          (fetch_stretching u colls day (fetch_warm_ups u colls day c).2).2).2 c' :=
        (fetch_meditations_ext _ colls day _).trans h
      have x3 : Ext (fetch_stretching u colls day (fetch_warm_ups u colls day c).2).2 c' :=
        (fetch_cool_downs_ext u colls day _).trans x4
      have x1 : Ext (fetch_warm_ups u colls day c).2 c' :=
        (fetch_stretching_ext u colls day _).trans x3
      simp only [build_day_parts, hbi, hsi, Bool.false_eq_true, ite_false, ite_true,
        fetch_warm_ups_stable x1, fetch_stretching_stable x3,
        fetch_cool_downs_stable x4, fetch_meditations_stable h]
  | true =>
    cases hsi : (get_component_durations (workoutDurationOf u)).include_stretching with
    | false =>
      have hB : (build_day_parts rng u colls day c).2 =
          (fetch_meditations (experienceLevelOf u) colls day
            (fetch_cool_downs u colls day
              (fetch_breathwork (experienceLevelOf u) colls day
                (fetch_warm_ups u colls day c).2).2).2).2 := by
        simp only [build_day_parts, hbi, hsi, Bool.false_eq_true, ite_false, ite_true]
      rw [hB] at h
      have x4 : Ext (fetch_cool_downs u colls day
          (fetch_breathwork (experienceLevelOf u) colls day
            (fetch_warm_ups u colls day c).2).2).2 c' :=
        (fetch_meditations_ext _ colls day _).trans h
      have x2 : Ext (fetch_breathwork (experienceLevelOf u) colls day
          (fetch_warm_ups u colls day c).2).2 c' :=
        (fetch_cool_downs_ext u colls day _).trans x4
      have x1 : Ext (fetch_warm_ups u colls day c).2 c' :=
        (fetch_breathwork_ext _ colls day _).trans x2
      simp only [build_day_parts, hbi, hsi, Bool.false_eq_true, ite_false, ite_true,
        fetch_warm_ups_stable x1, fetch_breathwork_stable x2,
        fetch_cool_downs_stable x4, fetch_meditations_stable h]
    | true =>
      have hB : (build_day_parts rng u colls day c).2 =
          (fetch_meditations (experienceLevelOf u) colls day
            (fetch_cool_downs u colls day
              (fetch_stretching u colls day
                (fetch_breathwork (experienceLevelOf u) colls day
                  (fetch_warm_ups u colls day c).2).2).2).2).2 := by
        simp only [build_day_parts, hbi, hsi, ite_true]
      rw [hB] at h
      have x4 : Ext (fetch_cool_downs u colls day
          (fetch_stretching u colls day
            (fetch_breathwork (experienceLevelOf u) colls day
              (fetch_warm_ups u colls day c).2).2).2).2 c' :=
        (fetch_meditations_ext _ colls day _).trans h
      have x3 : Ext (fetch_stretching u colls day
          (fetch_breathwork (experienceLevelOf u) colls day
            (fetch_warm_ups u colls day c).2).2).2 c' :=
        (fetch_cool_downs_ext u colls day _).trans x4
      have x2 : Ext (fetch_breathwork (experienceLevelOf u) colls day
          (fetch_warm_ups u colls day c).2).2 c' :=
        (fetch_stretching_ext u colls day _).trans x3
      have x1 : Ext (fetch_warm_ups u colls day c).2 c' :=
        (fetch_breathwork_ext _ colls day _).trans x2
      simp only [build_day_parts, hbi, hsi, ite_true,
        fetch_warm_ups_stable x1, fetch_breathwork_stable x2, fetch_stretching_stable x3,
        fetch_cool_downs_stable x4, fetch_meditations_stable h]

theorem create_day_schedule_ext (rng : RNG) (u : RawUserData) (colls : Collections)
    (is_rest_day : Bool) (day : String) (c : Cache) :
    Ext c (create_day_schedule rng u colls is_rest_day day c).2 := by
  cases is_rest_day with
  | true => exact Ext.refl c
  | false =>
    simp only [create_day_schedule, Bool.false_eq_true, ite_false]
    exact build_day_parts_ext rng u colls day c

theorem create_day_schedule_stable {rng : RNG} {u : RawUserData} {colls : Collections}
    {is_rest_day : Bool} {day : String} {c c' : Cache}
    (h : Ext (create_day_schedule rng u colls is_rest_day day c).2 c') :
    create_day_schedule rng u colls is_rest_day day c' =
      ((create_day_schedule rng u colls is_rest_day day c).1, c') := by
  cases is_rest_day with
  | true => simp only [create_day_schedule, ite_true]
  | false =>
    simp only [create_day_schedule, Bool.false_eq_true, ite_false] at h ⊢
    rw [build_day_parts_stable h]

theorem schedule_days_ext (rng : RNG) (u : RawUserData) (colls : Collections)
    (dates : List String) (c : Cache) : Ext c (schedule_days rng u colls dates c).2 := by
  induction dates generalizing c with
  | nil => exact Ext.refl c
  | cons date rest ih =>
    simp only [schedule_days]
    exact (create_day_schedule_ext rng u colls _ date c).trans (ih _)

theorem schedule_days_stable {rng : RNG} {u : RawUserData} {colls : Collections}
    {dates : List String} {c c' : Cache}
    (h : Ext (schedule_days rng u colls dates c).2 c') :
    schedule_days rng u colls dates c' = ((schedule_days rng u colls dates c).1, c') := by
  induction dates generalizing c c' with
  | nil => rfl
  | cons date rest ih =>
    simp only [schedule_days] at h ⊢
    have hd : Ext (create_day_schedule rng u colls
        (restDayMatches u.preferred_rest_day date) date c).2 c' :=
      (schedule_days_ext rng u colls rest _).trans h
    rw [create_day_schedule_stable hd]
    rw [ih h]

/-! ### Concrete fixtures for closed-form evaluation -/

/-- A warm-up document. -/
def wUp : Item :=
  { oid := some 1, name := some "w", tags := ["general"],
    difficulty_levels := [("beginner", {})] }

/-- A cool-down document. -/
def cDn : Item :=
  { oid := some 2, name := some "c", tags := ["general"],
    difficulty_levels := [("beginner", {})] }

/-- A stretching document. -/
def stR : Item :=
  { oid := some 3, name := some "s", tags := ["mobility"],
    difficulty := some "beginner" }

/-- A meditation document. -/
def meD : Item :=
  { oid := some 4, name := some "m", difficulty := some "beginner",
    duration_short := some 10 }

/-- A breathwork document. -/
def brW : Item :=
  { oid := some 5, name := some "b", difficulty := some "beginner",
    pre_workout := some true }

/-- An exercise document with a beginner entry. -/
def eX1 : Item :=
  { oid := some 6, name := some "e1", tags := ["functional"],
    difficulty_levels := [("beginner", { sets := some "3", reps := some "10" })] }

/-- A second exercise document with a beginner entry. -/
def eX2 : Item :=
  { oid := some 7, name := some "e2", tags := ["functional"],
    difficulty_levels := [("beginner", { sets := some "2", reps := some "12" })] }

/-- A repository with one document per category (two exercises). -/
def colls0 : Collections :=
  { exercises := [eX1, eX2], warm_ups := [wUp], cool_downs := [cDn],
    stretching := [stR], meditation := [meD], breathwork := [brW] }

/-- A valid 15-minute request whose rest day is the last date. -/
def u15 : RawUserData :=
  { weight := some (.vInt 80), height := some (.vInt 180),
    fitness_goals := some (.vListStr ["General Fitness"]),
    experience_level := some (.vStr "beginner"),
    preferred_rest_day := some (.vStr "d7"),
    workout_duration := some (.vInt 15),
    start_date := some (.vStr "d1"),
    date_range := some (.vListStr ["d1", "d2", "d3", "d4", "d5", "d6", "d7"]) }

/-- The result of generating a plan for `u15` over `colls0` from an empty
cache (the error branch is unreachable; validation succeeds). -/
def res15 : Plan × Cache :=
  match generate_weekly_plan rngModel u15 colls0 [] "t1" with
  | .ok r => r
  | .error _ =>
    ({ metadata := { generated_at := "", start_date := none, goals := [],
                     level := "", preferred_rest_day := none }, schedule := [] }, [])

/-! ### Claim C1: repeat generation is deterministic -/

/-- C1: for a fixed request and fixed repository contents, a second
invocation of `generate_weekly_plan` — running on the module-level cache
state the first invocation left behind — produces the identical
`schedule` mapping (same per-day selections, durations and block order)
and leaves the cache unchanged; only the `generated_at` timestamp input
may differ. -/
theorem claim_C1 (rng : RNG) (u : RawUserData) (colls : Collections) (c : Cache)
    (now now' : String) (p1 : Plan) (c1 : Cache)
    (h1 : generate_weekly_plan rng u colls c now = .ok (p1, c1)) :
    ∃ p2 : Plan, generate_weekly_plan rng u colls c1 now' = .ok (p2, c1) ∧
      p2.schedule = p1.schedule := by
  cases hv : validate_user_data u with
  | error e =>
    rw [generate_weekly_plan, hv] at h1
    cases h1
  | ok unitv =>
    rw [generate_weekly_plan, hv] at h1
    injection h1 with h
    have hp1 : p1.schedule = (create_weekly_schedule rng u colls c).1 :=
      (congrArg (fun x : Plan × Cache => x.1.schedule) h).symm
    have hc : c1 = (create_weekly_schedule rng u colls c).2 :=
      (congrArg (fun x : Plan × Cache => x.2) h).symm
    have hw : create_weekly_schedule rng u colls c1 =
        ((create_weekly_schedule rng u colls c).1, c1) := by
      rw [hc]
      exact schedule_days_stable (Ext.refl _)
    refine ⟨{ metadata := { generated_at := now', start_date := u.start_date, goals := goalsOf u, level := experienceLevelOf u, preferred_rest_day := u.preferred_rest_day }, schedule := (create_weekly_schedule rng u colls c).1 }, ?_, ?_⟩
    · rw [generate_weekly_plan, hv]
      simp only [hw]
    · exact hp1.symm

/-- Witness for C1 at a concrete request and repository. -/
theorem claim_C1_witness :
    ∃ p2 : Plan, generate_weekly_plan rngModel u15 colls0 res15.2 "t2" = .ok (p2, res15.2) ∧
      p2.schedule = res15.1.schedule :=
  claim_C1 rngModel u15 colls0 [] "t1" "t2" res15.1 res15.2 (by rfl)

/-! ### Shape of the weekly schedule (claims C3, C4) -/

theorem schedule_days_keys (rng : RNG) (u : RawUserData) (colls : Collections)
    (dates : List String) (c : Cache) :
    (schedule_days rng u colls dates c).1.map Prod.fst = dates := by
  induction dates generalizing c with
  | nil => rfl
  | cons date rest ih =>
    simp only [schedule_days, List.map_cons]
    rw [ih]

theorem schedule_days_lookup (rng : RNG) (u : RawUserData) (colls : Collections)
    (dates : List String) (c : Cache) (d : String) (hd : d ∈ dates) :
    ∃ e : DayEntry, List.lookup d (schedule_days rng u colls dates c).1 = some e ∧
      e.type = (if restDayMatches u.preferred_rest_day d then "Rest Day" else "Workout Day") ∧
      (restDayMatches u.preferred_rest_day d = true → e.schedule = []) := by
  induction dates generalizing c with
  | nil => cases hd
  | cons date rest ih =>
    by_cases hde : d = date
    · have hbe : (d == date) = true := beq_iff_eq.mpr hde
      refine ⟨{ type := if restDayMatches u.preferred_rest_day date then "Rest Day" else "Workout Day", schedule := (create_day_schedule rng u colls (restDayMatches u.preferred_rest_day date) date c).1 }, ?_, ?_, ?_⟩
      · simp only [schedule_days, List.lookup, hbe]
      · rw [hde]
      · intro hrest
        rw [hde] at hrest
        simp only [hrest, create_day_schedule, ite_true]
    · have hbe : (d == date) = false := beq_eq_false_iff_ne.mpr hde
      have hdr : d ∈ rest := by
        cases hd with
        | head => exact absurd rfl hde
        | tail _ h => exact h
      simp only [schedule_days, List.lookup, hbe]
      exact ih _ hdr

/-- C3: when the request's `preferred_rest_day` is one of the dates of
`date_range`, the generated plan maps that date to a `Rest Day` entry
with an empty schedule, and every other date of `date_range` to a
`Workout Day` entry. -/
theorem claim_C3 (rng : RNG) (u : RawUserData) (colls : Collections) (c : Cache)
    (now : String) (p : Plan) (c' : Cache) (r : String)
    (hps : u.preferred_rest_day = some (.vStr r))
    (hr : r ∈ dateRangeOf u)
    (hg : generate_weekly_plan rng u colls c now = .ok (p, c')) :
    (∃ e : DayEntry, List.lookup r p.schedule = some e ∧
      e.type = "Rest Day" ∧ e.schedule = []) ∧
    (∀ d ∈ dateRangeOf u, d ≠ r →
      ∃ e : DayEntry, List.lookup d p.schedule = some e ∧ e.type = "Workout Day") := by
  cases hv : validate_user_data u with
  | error e => rw [generate_weekly_plan, hv] at hg; cases hg
  | ok unitv =>
    rw [generate_weekly_plan, hv] at hg
    injection hg with h
    have hps' : p.schedule = (create_weekly_schedule rng u colls c).1 :=
      (congrArg (fun x : Plan × Cache => x.1.schedule) h).symm
    constructor
    · obtain ⟨e, he, ht, hs⟩ := schedule_days_lookup rng u colls (dateRangeOf u) c r hr
      have hm : restDayMatches u.preferred_rest_day r = true := by
        simp [restDayMatches, hps]
      refine ⟨e, ?_, ?_, hs hm⟩
      · rw [hps']; exact he
      · rw [ht, hm]; simp
    · intro d hd hdr
      obtain ⟨e, he, ht, _⟩ := schedule_days_lookup rng u colls (dateRangeOf u) c d hd
      have hm : restDayMatches u.preferred_rest_day d = false := by
        simp [restDayMatches, hps]
        exact fun hc => absurd hc.symm hdr
      refine ⟨e, ?_, ?_⟩
      · rw [hps']; exact he
      · rw [ht, hm]; simp

/-- Witness for C3 at a concrete request and repository. -/
theorem claim_C3_witness :
    (∃ e : DayEntry, List.lookup "d7" res15.1.schedule = some e ∧
      e.type = "Rest Day" ∧ e.schedule = []) ∧
    (∀ d ∈ dateRangeOf u15, d ≠ "d7" →
      ∃ e : DayEntry, List.lookup d res15.1.schedule = some e ∧ e.type = "Workout Day") :=
  claim_C3 rngModel u15 colls0 [] "t1" res15.1 res15.2 "d7" (by rfl) (by decide) (by rfl)

/-- C4: for every valid request, the generated plan has exactly 7 day
entries, keyed exactly (and in order) by the strings of `date_range`. -/
theorem claim_C4 (rng : RNG) (u : RawUserData) (colls : Collections) (c : Cache)
    (now : String) (p : Plan) (c' : Cache)
    (hg : generate_weekly_plan rng u colls c now = .ok (p, c')) :
    p.schedule.map Prod.fst = dateRangeOf u ∧ p.schedule.length = 7 := by
  cases hv : validate_user_data u with
  | error e => rw [generate_weekly_plan, hv] at hg; cases hg
  | ok unitv =>
    rw [generate_weekly_plan, hv] at hg
    injection hg with h
    have hps' : p.schedule = (create_weekly_schedule rng u colls c).1 :=
      (congrArg (fun x : Plan × Cache => x.1.schedule) h).symm
    have hkeys : p.schedule.map Prod.fst = dateRangeOf u := by
      rw [hps']; exact schedule_days_keys rng u colls (dateRangeOf u) c
    refine ⟨hkeys, ?_⟩
    have hlen7 : (dateRangeOf u).length = 7 := by
      have hv7 : pyIsList7 u.date_range = true := by
        by_contra hvn
        simp only [validate_user_data] at hv
        split_ifs at hv <;> simp_all
      unfold pyIsList7 at hv7
      unfold dateRangeOf
      cases hdr : u.date_range with
      | none => rw [hdr] at hv7; cases hv7
      | some v =>
        cases v with
        | vListStr xs => rw [hdr] at hv7; simpa using hv7
        | vStr s => rw [hdr] at hv7; cases hv7
        | vInt n => rw [hdr] at hv7; cases hv7
    calc p.schedule.length = (p.schedule.map Prod.fst).length := by simp
    _ = (dateRangeOf u).length := by rw [hkeys]
    _ = 7 := hlen7

/-- Witness for C4 at a concrete request and repository. -/
theorem claim_C4_witness :
    res15.1.schedule.map Prod.fst = dateRangeOf u15 ∧ res15.1.schedule.length = 7 :=
  claim_C4 rngModel u15 colls0 [] "t1" res15.1 res15.2 (by rfl)

/-! ### Claim C5: validation -/

theorem missingFields_empty_iff (u : RawUserData) :
    (missingFields u).isEmpty = true ↔
      (u.weight.isSome = true ∧ u.height.isSome = true ∧ u.fitness_goals.isSome = true ∧
       u.experience_level.isSome = true ∧ u.preferred_rest_day.isSome = true ∧
       u.workout_duration.isSome = true ∧ u.start_date.isSome = true ∧
       u.date_range.isSome = true) := by
  simp [missingFields, List.isEmpty_iff, List.append_eq_nil, Option.isSome_iff_ne_none,
    Option.isNone_iff_eq_none]

/-- The request-validity predicate in the spec's words: every required
field present, `fitness_goals` a list, `experience_level` and
`workout_duration` drawn from their enums, and `date_range` a list of 7
strings.  Deliberately (following the code, not the spec's §3 invariant)
it says nothing about `preferred_rest_day` being a member of
`date_range`. -/
def ValidRequest (u : RawUserData) : Prop :=
  u.weight.isSome = true ∧ u.height.isSome = true ∧ u.fitness_goals.isSome = true ∧
  u.experience_level.isSome = true ∧ u.preferred_rest_day.isSome = true ∧
  u.workout_duration.isSome = true ∧ u.start_date.isSome = true ∧
  u.date_range.isSome = true ∧
  pyIsList u.fitness_goals = true ∧ pyMemStr u.experience_level DIFFICULTY_LEVELS = true ∧
  pyMemInt u.workout_duration WORKOUT_DURATIONS = true ∧ pyIsList7 u.date_range = true

/-- Validation succeeds exactly on the `ValidRequest` conditions. -/
theorem validate_ok_iff (u : RawUserData) :
    validate_user_data u = .ok () ↔ ValidRequest u := by
  constructor
  · intro h
    unfold validate_user_data at h
    split_ifs at h with h1 h2 h3 h4 h5 <;> try exact Except.noConfusion h
    have hb1 : (missingFields u).isEmpty = true := by simpa using h1
    have hb2 : pyIsList u.fitness_goals = true := by simpa using h2
    have hb3 : pyMemStr u.experience_level DIFFICULTY_LEVELS = true := by simpa using h3
    have hb4 : pyMemInt u.workout_duration WORKOUT_DURATIONS = true := by simpa using h4
    have hb5 : pyIsList7 u.date_range = true := by simpa using h5
    obtain ⟨w1, w2, w3, w4, w5, w6, w7, w8⟩ := (missingFields_empty_iff u).mp hb1
    exact ⟨w1, w2, w3, w4, w5, w6, w7, w8, hb2, hb3, hb4, hb5⟩
  · intro hv
    obtain ⟨w1, w2, w3, w4, w5, w6, w7, w8, hb2, hb3, hb4, hb5⟩ := hv
    have hb1 : (missingFields u).isEmpty = true :=
      (missingFields_empty_iff u).mpr ⟨w1, w2, w3, w4, w5, w6, w7, w8⟩
    simp [validate_user_data, hb1, hb2, hb3, hb4, hb5]

/-- C5 (amended): validation succeeds exactly on requests with all
required fields, list-typed goals, enum-valid level and duration, and a
7-element date list — membership of `preferred_rest_day` in `date_range`
is NOT checked — and any validation error is raised by
`generate_weekly_plan` unchanged, before and independent of any
content-repository access (the result is the same for every repository
and cache). -/
theorem claim_C5 (u : RawUserData) :
    (validate_user_data u = .ok () ↔ ValidRequest u) ∧
    (∀ e : String, validate_user_data u = .error e →
      ∀ (rng : RNG) (colls : Collections) (c : Cache) (now : String),
        generate_weekly_plan rng u colls c now = .error e) := by
  refine ⟨validate_ok_iff u, ?_⟩
  intro e he rng colls c now
  rw [generate_weekly_plan, he]

/-- A request whose only flaw is a missing `weight` field. -/
def uMissing : RawUserData := { u15 with weight := none }

/-- Witness for C5: a missing field propagates as the unchanged
validation error of `generate_weekly_plan`, for a concrete repository. -/
theorem claim_C5_witness :
    generate_weekly_plan rngModel uMissing colls0 [] "t" =
      .error "Missing required fields: weight" :=
  (claim_C5 uMissing).2 _ (by rfl) rngModel colls0 [] "t"

/-- A request that passes every implemented check but whose
`preferred_rest_day` is not a member of `date_range`. -/
def uBadRest : RawUserData := { u15 with preferred_rest_day := some (.vStr "nope") }

/-- The plan generated for `uBadRest` (generation succeeds). -/
def resBadRest : Plan × Cache :=
  match generate_weekly_plan rngModel uBadRest colls0 [] "t1" with
  | .ok r => r
  | .error _ =>
    ({ metadata := { generated_at := "", start_date := none, goals := [],
                     level := "", preferred_rest_day := none }, schedule := [] }, [])

/-- C5 counterexample: a request whose `preferred_rest_day` matches no
date of `date_range` is not rejected — validation succeeds and
`generate_weekly_plan` returns a plan (with no rest day at all), so the
claimed validation failure for the §3 membership invariant never
happens. -/
theorem claim_C5_counterexample :
    validate_user_data uBadRest = .ok () ∧
    (∀ d ∈ dateRangeOf uBadRest, restDayMatches uBadRest.preferred_rest_day d = false) ∧
    generate_weekly_plan rngModel uBadRest colls0 [] "t1" =
      .ok (resBadRest.1, resBadRest.2) := by
  refine ⟨by rfl, by decide, by rfl⟩

/-! ### Component shape lemmas (claims C2, C8, C10) -/

theorem prepare_warmup_spec {rng : RNG} {l : List Item} {s : Nat} {t : Int} {b : Block}
    (h : prepare_warmup_component rng l s t = some b) :
    b.duration = t ∧ b.activity.type = "warm_up" := by
  unfold prepare_warmup_component at h
  cases hsel : select_activity_with_seed rng l s 0 with
  | none => rw [hsel] at h; cases h
  | some w => rw [hsel] at h; cases h; exact ⟨rfl, rfl⟩

theorem prepare_breathwork_spec {rng : RNG} {l : List Item} {s : Nat} {t : Int} {b : Block}
    (h : prepare_breathwork_component rng l s t = some b) :
    b.duration = t ∧ b.activity.type = "breathwork" := by
  unfold prepare_breathwork_component at h
  cases hsel : select_activity_with_seed rng l s 1 with
  | none => rw [hsel] at h; cases h
  | some w => rw [hsel] at h; cases h; exact ⟨rfl, rfl⟩

theorem prepare_stretching_spec {rng : RNG} {l : List Item} {s : Nat} {t : Int} {b : Block}
    (h : prepare_stretching_component rng l s t = some b) :
    b.duration = t ∧ b.activity.type = "stretching" := by
  unfold prepare_stretching_component at h
  cases hsel : select_activity_with_seed rng l s 2 with
  | none => rw [hsel] at h; cases h
  | some w => rw [hsel] at h; cases h; exact ⟨rfl, rfl⟩

theorem prepare_cooldown_spec {rng : RNG} {l : List Item} {s : Nat} {t : Int} {b : Block}
    (h : prepare_cooldown_component rng l s t = some b) :
    b.duration = t ∧ b.activity.type = "cool_down" := by
  unfold prepare_cooldown_component at h
  cases hsel : select_activity_with_seed rng l s 3 with
  | none => rw [hsel] at h; cases h
  | some w => rw [hsel] at h; cases h; exact ⟨rfl, rfl⟩

theorem prepare_meditation_spec {rng : RNG} {l : List Item} {s : Nat} {t : Int} {b : Block}
    (h : prepare_meditation_component rng l s t = some b) :
    b.duration = t ∧ b.activity.type = "meditation" := by
  unfold prepare_meditation_component at h
  cases hsel : select_activity_with_seed rng l s 4 with
  | none => rw [hsel] at h; cases h
  | some w => rw [hsel] at h; cases h; exact ⟨rfl, rfl⟩

theorem prepare_exercise_components_mem {exs : List Item} {t : Int} {lvl : String}
    {n : Nat} : ∀ b ∈ prepare_exercise_components exs t lvl n,
    b.duration = t ∧ b.activity.type = "exercise" := by
  intro b hb
  unfold prepare_exercise_components at hb
  obtain ⟨ex, hex, hfm⟩ := List.mem_filterMap.mp hb
  cases he : effectiveLevelOf ex lvl with
  | none => rw [he] at hfm; cases hfm
  | some l =>
    rw [he] at hfm
    by_cases hle : l.isEmpty = true
    · simp only [hle, ite_true] at hfm; cases hfm
    · have hle' : l.isEmpty = false := by
        cases hbe : l.isEmpty
        · rfl
        · exact absurd hbe hle
      simp only [hle', Bool.false_eq_true, ite_false] at hfm
      cases hfm
      exact ⟨rfl, rfl⟩

theorem prepare_exercise_components_length (exs : List Item) (t : Int) (lvl : String)
    (n : Nat) : (prepare_exercise_components exs t lvl n).length ≤ min exs.length n := by
  unfold prepare_exercise_components
  calc (List.filterMap _ (exs.take (min exs.length n))).length
      ≤ (exs.take (min exs.length n)).length := List.length_filterMap_le _ _
  _ = min (min exs.length n) exs.length := List.length_take _ _
  _ ≤ min exs.length n := min_le_left _ _

theorem bdp_warm_spec {rng : RNG} {u : RawUserData} {colls : Collections}
    {day : String} {c : Cache} {b : Block}
    (h : (build_day_parts rng u colls day c).1.warm_up = some b) :
    b.duration = (get_component_durations (workoutDurationOf u)).warmup_time ∧
      b.activity.type = "warm_up" := by
  simp only [build_day_parts] at h
  by_cases he : (fetch_warm_ups u colls day c).1.isEmpty = true
  · simp only [he, ite_true] at h; cases h
  · simp only [he, ite_false] at h
    exact prepare_warmup_spec h

theorem bdp_breath_spec {rng : RNG} {u : RawUserData} {colls : Collections}
    {day : String} {c : Cache} {b : Block}
    (h : (build_day_parts rng u colls day c).1.breathwork = some b) :
    b.duration = (get_component_durations (workoutDurationOf u)).breathwork_time ∧
      b.activity.type = "breathwork" ∧
      (get_component_durations (workoutDurationOf u)).include_breathwork = true := by
  simp only [build_day_parts] at h
  by_cases hc : ((get_component_durations (workoutDurationOf u)).include_breathwork &&
      !(if (get_component_durations (workoutDurationOf u)).include_breathwork then
          fetch_breathwork (experienceLevelOf u) colls day (fetch_warm_ups u colls day c).2
        else ([], (fetch_warm_ups u colls day c).2)).1.isEmpty) = true
  · simp only [hc, ite_true] at h
    obtain ⟨hd, ht⟩ := prepare_breathwork_spec h
    exact ⟨hd, ht, ((Bool.and_eq_true _ _).mp hc).1⟩
  · simp only [hc, ite_false] at h; cases h

theorem bdp_stretch_spec {rng : RNG} {u : RawUserData} {colls : Collections}
    {day : String} {c : Cache} {b : Block}
    (h : (build_day_parts rng u colls day c).1.stretching = some b) :
    b.duration = (get_component_durations (workoutDurationOf u)).stretching_time ∧
      b.activity.type = "stretching" ∧
      (get_component_durations (workoutDurationOf u)).include_stretching = true := by
  simp only [build_day_parts] at h
  generalize hfs : (if (get_component_durations (workoutDurationOf u)).include_stretching then
      fetch_stretching u colls day _ else ([], _)) = fs at h
  by_cases hc : ((get_component_durations (workoutDurationOf u)).include_stretching &&
      !fs.1.isEmpty) = true
  · simp only [hc, ite_true] at h
    obtain ⟨hd, ht⟩ := prepare_stretching_spec h
    exact ⟨hd, ht, ((Bool.and_eq_true _ _).mp hc).1⟩
  · simp only [hc, ite_false] at h; cases h

theorem bdp_cool_spec {rng : RNG} {u : RawUserData} {colls : Collections}
    {day : String} {c : Cache} {b : Block}
    (h : (build_day_parts rng u colls day c).1.cool_down = some b) :
    b.duration = (get_component_durations (workoutDurationOf u)).cooldown_time ∧
      b.activity.type = "cool_down" := by
  simp only [build_day_parts] at h
  generalize hfc : fetch_cool_downs u colls day _ = fc at h
  by_cases he : fc.1.isEmpty = true
  · simp only [he, ite_true] at h; cases h
  · simp only [he, ite_false] at h
    exact prepare_cooldown_spec h

theorem bdp_med_spec {rng : RNG} {u : RawUserData} {colls : Collections}
    {day : String} {c : Cache} {b : Block}
    (h : (build_day_parts rng u colls day c).1.meditation = some b) :
    b.duration = (get_component_durations (workoutDurationOf u)).meditation_time ∧
      b.activity.type = "meditation" := by
  simp only [build_day_parts] at h
  generalize hfm : fetch_meditations (experienceLevelOf u) colls day _ = fm at h
  by_cases he : fm.1.isEmpty = true
  · simp only [he, ite_true] at h; cases h
  · simp only [he, ite_false] at h
    exact prepare_meditation_spec h

/-- The exercise-time formula of `create_day_schedule`:
`max(5, remaining_time // exercise_count)`. -/
def time_per_exercise_of (remaining_time : Int) (exercise_count : Nat) : Int :=
  max 5 (Int.fdiv remaining_time (exercise_count : Int))

theorem bdp_mains_spec (rng : RNG) (u : RawUserData) (colls : Collections)
    (day : String) (c : Cache) :
    (∀ b ∈ (build_day_parts rng u colls day c).1.main_exercises,
        b.duration = time_per_exercise_of
          (workoutDurationOf u - auxiliary_time (get_component_durations (workoutDurationOf u))
            ((build_day_parts rng u colls day c).1.warm_up).isSome
            ((build_day_parts rng u colls day c).1.breathwork).isSome)
          (min (fetch_exercises rng u colls day).length
            (get_component_durations (workoutDurationOf u)).max_exercises) ∧
        b.activity.type = "exercise") ∧
    (build_day_parts rng u colls day c).1.main_exercises.length ≤
      min (fetch_exercises rng u colls day).length
        (get_component_durations (workoutDurationOf u)).max_exercises := by
  simp only [build_day_parts, time_per_exercise_of]
  by_cases hpos : 0 < min (fetch_exercises rng u colls day).length
      (get_component_durations (workoutDurationOf u)).max_exercises
  · simp only [hpos, ite_true]
    exact ⟨fun b hb => prepare_exercise_components_mem b hb,
      le_trans (prepare_exercise_components_length _ _ _ _) (min_le_right _ _)⟩
  · simp only [hpos, ite_false]
    exact ⟨fun b hb => absurd hb (List.not_mem_nil b), Nat.zero_le _⟩

theorem aux_time_bounds (total : Int) (h : total ∈ WORKOUT_DURATIONS) (hw hb : Bool) :
    0 ≤ auxiliary_time (get_component_durations total) hw hb ∧
    auxiliary_time (get_component_durations total) hw hb ≤ total := by
  simp only [WORKOUT_DURATIONS, List.mem_cons, List.not_mem_nil, or_false] at h
  rcases h with h | h | h | h <;> subst h <;> cases hw <;> cases hb <;>
    exact ⟨by decide, by decide⟩

theorem comp_times_nonneg (total : Int) (h : total ∈ WORKOUT_DURATIONS) :
    0 ≤ (get_component_durations total).warmup_time ∧
    0 ≤ (get_component_durations total).breathwork_time ∧
    0 ≤ (get_component_durations total).cooldown_time ∧
    0 ≤ (get_component_durations total).meditation_time ∧
    0 ≤ (get_component_durations total).stretching_time := by
  simp only [WORKOUT_DURATIONS, List.mem_cons, List.not_mem_nil, or_false] at h
  rcases h with h | h | h | h <;> subst h <;> exact ⟨by decide, by decide, by decide,
    by decide, by decide⟩

/-- The floor-division allocation can overrun `remaining` by at most the
5-minute floor per counted exercise. -/
theorem exercise_time_bound (remaining : Int) (hr : 0 ≤ remaining) (exCount nEx : Nat)
    (hn : nEx ≤ exCount) (hpos : 0 < exCount) :
    (nEx : Int) * time_per_exercise_of remaining exCount ≤ remaining + 5 * nEx := by
  unfold time_per_exercise_of
  have hbpos : (0 : Int) < (exCount : Int) := by exact_mod_cast hpos
  have hbne : (exCount : Int) ≠ 0 := ne_of_gt hbpos
  have hfd : Int.fdiv remaining (exCount : Int) = remaining / (exCount : Int) :=
    Int.fdiv_eq_ediv _ (le_of_lt hbpos)
  by_cases h5 : 5 ≤ Int.fdiv remaining (exCount : Int)
  · rw [max_eq_right h5]
    have hq0 : 0 ≤ Int.fdiv remaining (exCount : Int) := le_trans (by decide) h5
    have h1 : (nEx : Int) * Int.fdiv remaining (exCount : Int) ≤
        (exCount : Int) * Int.fdiv remaining (exCount : Int) :=
      mul_le_mul_of_nonneg_right (by exact_mod_cast hn) hq0
    have h2 : (exCount : Int) * (remaining / (exCount : Int)) ≤ remaining := by
      have hdm := Int.ediv_add_emod remaining (exCount : Int)
      have hm0 := Int.emod_nonneg remaining hbne
      linarith
    rw [hfd] at h1
    rw [hfd]
    have hnn : (0 : Int) ≤ 5 * nEx := by positivity
    linarith
  · rw [max_eq_left (le_of_not_le h5)]
    have : (nEx : Int) * 5 = 5 * nEx := by ring
    linarith

theorem sum_map_const_duration (l : List Block) (t : Int) (h : ∀ b ∈ l, b.duration = t) :
    (l.map Block.duration).sum = (l.length : Int) * t := by
  induction l with
  | nil => simp
  | cons a as ih =>
    have ha : a.duration = t := h a (List.mem_cons_self a as)
    have ht : (as.map Block.duration).sum = (as.length : Int) * t :=
      ih (fun b hb => h b (List.mem_cons_of_mem a hb))
    simp only [List.map_cons, List.sum_cons, ha, ht, List.length_cons]
    push_cast
    ring

theorem length_filter_all_exercise (l : List Block)
    (h : ∀ b ∈ l, b.activity.type = "exercise") :
    (l.filter (fun b => b.activity.type == "exercise")).length = l.length := by
  induction l with
  | nil => rfl
  | cons a as ih =>
    have ha : (a.activity.type == "exercise") = true :=
      beq_iff_eq.mpr (h a (List.mem_cons_self a as))
    simp only [List.filter_cons, ha, ite_true, List.length_cons]
    rw [ih (fun b hb => h b (List.mem_cons_of_mem a hb))]

/-- A day assembled from parts whose blocks carry the allocator's
per-component minutes has total duration at most the requested total
plus the 5-minute floor for each exercise block. -/
theorem parts_sum_bound (d : Durations) (total : Int) (p : DayParts) (exsLen : Nat)
    (haux : ∀ hw hb : Bool, 0 ≤ auxiliary_time d hw hb ∧ auxiliary_time d hw hb ≤ total)
    (hcnn : 0 ≤ d.cooldown_time) (hmnn : 0 ≤ d.meditation_time) (hsnn : 0 ≤ d.stretching_time)
    (hW : ∀ b, p.warm_up = some b → b.duration = d.warmup_time ∧ b.activity.type = "warm_up")
    (hB : ∀ b, p.breathwork = some b →
      b.duration = d.breathwork_time ∧ b.activity.type = "breathwork")
    (hS : ∀ b, p.stretching = some b → b.duration = d.stretching_time ∧
      b.activity.type = "stretching" ∧ d.include_stretching = true)
    (hC : ∀ b, p.cool_down = some b → b.duration = d.cooldown_time ∧
      b.activity.type = "cool_down")
    (hM : ∀ b, p.meditation = some b → b.duration = d.meditation_time ∧
      b.activity.type = "meditation")
    (hmains : ∀ b ∈ p.main_exercises, b.duration = time_per_exercise_of
      (total - auxiliary_time d p.warm_up.isSome p.breathwork.isSome)
      (min exsLen d.max_exercises) ∧ b.activity.type = "exercise")
    (hlen : p.main_exercises.length ≤ min exsLen d.max_exercises) :
    ((assemble_day p).map Block.duration).sum ≤
      total + 5 * (((assemble_day p).filter
        (fun b => b.activity.type == "exercise")).length : Int) := by
  have hWf : (p.warm_up.toList.map Block.duration).sum =
      (if p.warm_up.isSome then d.warmup_time else 0) ∧
      (p.warm_up.toList.filter (fun b => b.activity.type == "exercise")).length = 0 := by
    cases hw : p.warm_up with
    | none => simp
    | some b =>
      obtain ⟨h1, h2⟩ := hW b hw
      constructor
      · simp [h1]
      · simp [List.filter, h2]
  have hBf : (p.breathwork.toList.map Block.duration).sum =
      (if p.breathwork.isSome then d.breathwork_time else 0) ∧
      (p.breathwork.toList.filter (fun b => b.activity.type == "exercise")).length = 0 := by
    cases hw : p.breathwork with
    | none => simp
    | some b =>
      obtain ⟨h1, h2⟩ := hB b hw
      constructor
      · simp [h1]
      · simp [List.filter, h2]
  have hSf : (p.stretching.toList.map Block.duration).sum ≤
      (if d.include_stretching then d.stretching_time else 0) ∧
      (p.stretching.toList.filter (fun b => b.activity.type == "exercise")).length = 0 := by
    cases hw : p.stretching with
    | none =>
      constructor
      · simp only [Option.toList_none, List.map_nil, List.sum_nil]
        split <;> simp [hsnn]
      · simp
    | some b =>
      obtain ⟨h1, h2, h3⟩ := hS b hw
      constructor
      · simp [h1, h3]
      · simp [List.filter, h2]
  have hCf : (p.cool_down.toList.map Block.duration).sum ≤ d.cooldown_time ∧
      (p.cool_down.toList.filter (fun b => b.activity.type == "exercise")).length = 0 := by
    cases hw : p.cool_down with
    | none => constructor <;> simp [hcnn]
    | some b =>
      obtain ⟨h1, h2⟩ := hC b hw
      constructor
      · simp [h1]
      · simp [List.filter, h2]
  have hMf : (p.meditation.toList.map Block.duration).sum ≤ d.meditation_time ∧
      (p.meditation.toList.filter (fun b => b.activity.type == "exercise")).length = 0 := by
    cases hw : p.meditation with
    | none => constructor <;> simp [hmnn]
    | some b =>
      obtain ⟨h1, h2⟩ := hM b hw
      constructor
      · simp [h1]
      · simp [List.filter, h2]
  have hMainSum : (p.main_exercises.map Block.duration).sum =
      (p.main_exercises.length : Int) * time_per_exercise_of
        (total - auxiliary_time d p.warm_up.isSome p.breathwork.isSome)
        (min exsLen d.max_exercises) :=
    sum_map_const_duration _ _ (fun b hb => (hmains b hb).1)
  have hMainFilter : (p.main_exercises.filter
      (fun b => b.activity.type == "exercise")).length = p.main_exercises.length :=
    length_filter_all_exercise _ (fun b hb => (hmains b hb).2)
  have hA := haux p.warm_up.isSome p.breathwork.isSome
  have hMainBound : (p.main_exercises.map Block.duration).sum ≤
      (total - auxiliary_time d p.warm_up.isSome p.breathwork.isSome) +
        5 * (p.main_exercises.length : Int) := by
    by_cases hpos : 0 < min exsLen d.max_exercises
    · rw [hMainSum]
      exact exercise_time_bound _ (by linarith [hA.1, hA.2]) _ _ hlen hpos
    · have h0 : min exsLen d.max_exercises = 0 := Nat.eq_zero_of_not_pos hpos
      have hl0 : p.main_exercises.length = 0 := Nat.le_zero.mp (h0 ▸ hlen)
      rw [hMainSum, hl0]
      simp only [Nat.cast_zero, zero_mul, mul_zero, add_zero]
      linarith [hA.1, hA.2]
  unfold assemble_day auxiliary_time at *
  simp only [List.map_append, List.sum_append, List.filter_append, List.length_append,
    hWf.2, hBf.2, hSf.2, hCf.2, hMf.2, hMainFilter, Nat.zero_add, Nat.add_zero]
  rw [hWf.1, hBf.1]
  linarith [hSf.1, hCf.1, hMf.1, hMainBound]

theorem workoutDuration_mem {u : RawUserData}
    (hv : pyMemInt u.workout_duration WORKOUT_DURATIONS = true) :
    workoutDurationOf u ∈ WORKOUT_DURATIONS := by
  unfold pyMemInt at hv
  unfold workoutDurationOf
  cases hw : u.workout_duration with
  | none => rw [hw] at hv; cases hv
  | some v =>
    cases v with
    | vInt n => rw [hw] at hv; simpa using hv
    | vStr s => rw [hw] at hv; cases hv
    | vListStr l => rw [hw] at hv; cases hv

theorem duration_pos {t : Int} (h : t ∈ WORKOUT_DURATIONS) : 0 < t := by
  simp only [WORKOUT_DURATIONS, List.mem_cons, List.not_mem_nil, or_false] at h
  rcases h with h | h | h | h <;> subst h <;> decide

/-- On a workout day the assembled schedule's total minutes exceed the
requested duration by at most 5 minutes per scheduled exercise block. -/
theorem day_sum_bound (rng : RNG) (u : RawUserData) (colls : Collections)
    (day : String) (c : Cache) (hmem : workoutDurationOf u ∈ WORKOUT_DURATIONS) :
    ((create_day_schedule rng u colls false day c).1.map Block.duration).sum ≤
      workoutDurationOf u + 5 * (((create_day_schedule rng u colls false day c).1.filter
        (fun b => b.activity.type == "exercise")).length : Int) := by
  have hred : (create_day_schedule rng u colls false day c).1 =
      assemble_day (build_day_parts rng u colls day c).1 := by
    simp [create_day_schedule]
  rw [hred]
  obtain ⟨hmains, hlen⟩ := bdp_mains_spec rng u colls day c
  have hnn := comp_times_nonneg _ hmem
  exact parts_sum_bound (get_component_durations (workoutDurationOf u)) (workoutDurationOf u)
    (build_day_parts rng u colls day c).1 (fetch_exercises rng u colls day).length
    (aux_time_bounds _ hmem)
    hnn.2.2.1 hnn.2.2.2.1 hnn.2.2.2.2
    (fun _ hb => bdp_warm_spec hb)
    (fun _ hb => ⟨(bdp_breath_spec hb).1, (bdp_breath_spec hb).2.1⟩)
    (fun _ hb => bdp_stretch_spec hb)
    (fun _ hb => bdp_cool_spec hb)
    (fun _ hb => bdp_med_spec hb)
    hmains hlen

theorem schedule_days_entries (rng : RNG) (u : RawUserData) (colls : Collections)
    (dates : List String) (c : Cache) :
    ∀ kv ∈ (schedule_days rng u colls dates c).1, ∃ c0 : Cache,
      kv.2 = { type := if restDayMatches u.preferred_rest_day kv.1
                 then "Rest Day" else "Workout Day"
               schedule := (create_day_schedule rng u colls
                 (restDayMatches u.preferred_rest_day kv.1) kv.1 c0).1 } := by
  induction dates generalizing c with
  | nil => intro kv hkv; cases hkv
  | cons date rest ih =>
    intro kv hkv
    simp only [schedule_days, List.mem_cons] at hkv
    cases hkv with
    | inl h => exact ⟨c, by rw [h]⟩
    | inr h => exact ih _ kv h

/-- C2 (amended): for every valid request and every day of the plan, the
sum of the scheduled block durations is at most `workout_duration` plus
5 minutes per scheduled exercise block (the 5-minute per-exercise floor
is the only possible overrun; with no exercise blocks the budget always
holds). -/
theorem claim_C2 (rng : RNG) (u : RawUserData) (colls : Collections) (c : Cache)
    (now : String) (p : Plan) (c' : Cache)
    (hg : generate_weekly_plan rng u colls c now = .ok (p, c')) :
    ∀ kv ∈ p.schedule, (kv.2.schedule.map Block.duration).sum ≤
      workoutDurationOf u + 5 * ((kv.2.schedule.filter
        (fun b => b.activity.type == "exercise")).length : Int) := by
  cases hv : validate_user_data u with
  | error e => rw [generate_weekly_plan, hv] at hg; cases hg
  | ok unitv =>
    have hv' : validate_user_data u = .ok () := by rw [hv]
    have hvr := (validate_ok_iff u).mp hv'
    have hmem : workoutDurationOf u ∈ WORKOUT_DURATIONS :=
      workoutDuration_mem hvr.2.2.2.2.2.2.2.2.2.2.1
    rw [generate_weekly_plan, hv] at hg
    injection hg with h
    have hps : p.schedule = (create_weekly_schedule rng u colls c).1 :=
      (congrArg (fun x : Plan × Cache => x.1.schedule) h).symm
    intro kv hkv
    rw [hps] at hkv
    obtain ⟨c0, hkv2⟩ := schedule_days_entries rng u colls (dateRangeOf u) c kv hkv
    rw [hkv2]
    cases hrd : restDayMatches u.preferred_rest_day kv.1 with
    | true =>
      simp only [create_day_schedule, ite_true]
      simp only [List.map_nil, List.sum_nil, List.filter_nil, List.length_nil,
        Nat.cast_zero, mul_zero, add_zero]
      exact le_of_lt (duration_pos hmem)
    | false => exact day_sum_bound rng u colls kv.1 c0 hmem

/-- The day entry generated for date `d1` of the 15-minute request. -/
def day1e : DayEntry :=
  (List.lookup "d1" res15.1.schedule).getD { type := "", schedule := [] }

/-- Witness for the amended C2 at a concrete request, repository and day. -/
theorem claim_C2_witness :
    (day1e.schedule.map Block.duration).sum ≤
      workoutDurationOf u15 + 5 * ((day1e.schedule.filter
        (fun b => b.activity.type == "exercise")).length : Int) :=
  claim_C2 rngModel u15 colls0 [] "t1" res15.1 res15.2 (by rfl) ("d1", day1e) (by decide)

/-- C2 counterexample: at the 15-minute bucket with two available
exercises, day `d1` is a workout day whose blocks sum to 21 minutes
(warm-up 4 + two 5-minute floored exercises + cool-down 4 +
meditation 3), exceeding the requested 15-minute workout duration. -/
theorem claim_C2_counterexample :
    List.lookup "d1" res15.1.schedule = some day1e ∧
    day1e.type = "Workout Day" ∧
    (day1e.schedule.map Block.duration).sum = 21 ∧
    workoutDurationOf u15 = 15 ∧
    ¬((day1e.schedule.map Block.duration).sum ≤ workoutDurationOf u15) :=
  ⟨by rfl, by rfl, by rfl, by rfl, by decide⟩

/-! ### Claim C10: exercise time allocation -/

/-- C10: on a workout day, every exercise block's duration equals
`max(5, remaining_time // exercise_count)`, where `remaining_time` is the
workout duration minus the counted auxiliary minutes and
`exercise_count = min(fetched exercises, max_exercises)`; in particular
all exercise blocks share one duration and it is at least 5 minutes even
when `remaining_time` is non-positive. -/
theorem claim_C10 (rng : RNG) (u : RawUserData) (colls : Collections)
    (day : String) (c : Cache) :
    ∀ b ∈ (create_day_schedule rng u colls false day c).1,
      b.activity.type = "exercise" →
        b.duration = time_per_exercise_of
          (workoutDurationOf u - auxiliary_time (get_component_durations (workoutDurationOf u))
            ((build_day_parts rng u colls day c).1.warm_up).isSome
            ((build_day_parts rng u colls day c).1.breathwork).isSome)
          (min (fetch_exercises rng u colls day).length
            (get_component_durations (workoutDurationOf u)).max_exercises) ∧
        5 ≤ b.duration := by
  intro b hb htype
  have hred : (create_day_schedule rng u colls false day c).1 =
      assemble_day (build_day_parts rng u colls day c).1 := by
    simp [create_day_schedule]
  rw [hred] at hb
  unfold assemble_day at hb
  simp only [List.mem_append] at hb
  have hmain : b ∈ (build_day_parts rng u colls day c).1.main_exercises := by
    rcases hb with ((((hb | hb) | hb) | hb) | hb) | hb
    · exfalso
      cases hwo : (build_day_parts rng u colls day c).1.warm_up with
      | none => rw [hwo] at hb; cases hb
      | some w =>
        rw [hwo] at hb
        have : b = w := by simpa using hb
        subst this
        exact absurd ((bdp_warm_spec hwo).2.symm.trans htype) (by decide)
    · exfalso
      cases hwo : (build_day_parts rng u colls day c).1.breathwork with
      | none => rw [hwo] at hb; cases hb
      | some w =>
        rw [hwo] at hb
        have : b = w := by simpa using hb
        subst this
        exact absurd ((bdp_breath_spec hwo).2.1.symm.trans htype) (by decide)
    · exact hb
    · exfalso
      cases hwo : (build_day_parts rng u colls day c).1.stretching with
      | none => rw [hwo] at hb; cases hb
      | some w =>
        rw [hwo] at hb
        have : b = w := by simpa using hb
        subst this
        exact absurd ((bdp_stretch_spec hwo).2.1.symm.trans htype) (by decide)
    · exfalso
      cases hwo : (build_day_parts rng u colls day c).1.cool_down with
      | none => rw [hwo] at hb; cases hb
      | some w =>
        rw [hwo] at hb
        have : b = w := by simpa using hb
        subst this
        exact absurd ((bdp_cool_spec hwo).2.symm.trans htype) (by decide)
    · exfalso
      cases hwo : (build_day_parts rng u colls day c).1.meditation with
      | none => rw [hwo] at hb; cases hb
      | some w =>
        rw [hwo] at hb
        have : b = w := by simpa using hb
        subst this
        exact absurd ((bdp_med_spec hwo).2.symm.trans htype) (by decide)
  have hd := ((bdp_mains_spec rng u colls day c).1 b hmain).1
  exact ⟨hd, by rw [hd]; exact le_max_left _ _⟩

/-- The schedule of day `d1` computed directly from an empty cache. -/
def day1direct : List Block := (create_day_schedule rngModel u15 colls0 false "d1" []).1

/-- The second block of that day (an exercise block). -/
def exB : Block := day1direct.getD 1 { activity := {}, duration := 0 }

/-- Witness for C10 at a concrete day: the exercise block's duration is
the floored allocation and at least 5. -/
theorem claim_C10_witness :
    exB.duration = time_per_exercise_of
      (workoutDurationOf u15 - auxiliary_time (get_component_durations (workoutDurationOf u15))
        ((build_day_parts rngModel u15 colls0 "d1" []).1.warm_up).isSome
        ((build_day_parts rngModel u15 colls0 "d1" []).1.breathwork).isSome)
      (min (fetch_exercises rngModel u15 colls0 "d1").length
        (get_component_durations (workoutDurationOf u15)).max_exercises) ∧
    5 ≤ exB.duration :=
  claim_C10 rngModel u15 colls0 "d1" [] exB (by decide) (by rfl)

/-! ### Claim C7: fallback-query ladders -/

/-- First non-empty candidate result, empty if all candidates are empty
(the spec's description of the fallback executor). -/
def firstNonEmptySpec : List (List Item) → List Item
  | [] => []
  | l :: ls => if l.isEmpty then firstNonEmptySpec ls else l

/-- The candidate-query ladder the claim asserts for every category,
instantiated to the stretching collection's filter shapes: (1) goal tags
AND exact level, (2) tags alone, (3) exact level alone, (4) adjacent
levels, followed by the unfiltered cap.  (Written from the claim's
words, for comparison with the implemented ladder.) -/
def claimedStretchingQueries (level : String) (tags : List String) : List Query :=
  ([some (.diffTagsIn level tags),
    some (.tagsIn tags),
    some (.diffEq level),
    if level = "advanced" then some (.diffEq "intermediate") else none,
    if level = "advanced" ∨ level = "intermediate" then some (.diffEq "beginner") else none]).reduceOption

theorem execute_first_nonempty (repo : List Item) (queries : List Query) (limit : Nat) :
    execute_query_with_fallbacks repo queries limit =
      firstNonEmptySpec (queries.map
        (fun q => (repo.filter (matchesQuery q)).take limit) ++ [repo.take limit]) := by
  induction queries with
  | nil =>
    simp only [execute_query_with_fallbacks, List.map_nil, List.nil_append, firstNonEmptySpec]
    cases hpe : (repo.take limit).isEmpty with
    | true => simp only [ite_true]; exact (List.isEmpty_iff.mp hpe).symm ▸ rfl
    | false => simp only [Bool.false_eq_true, ite_false]
  | cons q qs ih =>
    simp only [execute_query_with_fallbacks, List.map_cons, List.cons_append,
      firstNonEmptySpec]
    cases hpe : ((repo.filter (matchesQuery q)).take limit).isEmpty with
    | true => simpa only [hpe, ite_true] using ih
    | false => simp only [hpe, Bool.false_eq_true, ite_false]

theorem execute_empty_of_empty_repo (queries : List Query) (limit : Nat) :
    execute_query_with_fallbacks [] queries limit = [] := by
  induction queries with
  | nil => simp [execute_query_with_fallbacks]
  | cons q qs ih => simpa [execute_query_with_fallbacks] using ih

/-- C7 (amended): the fallback executor runs the built candidate queries
in order, returns the first non-empty result, falls back to an
unfiltered capped query, and returns the empty list when the collection
has nothing at all; the stretching ladder it is given, however, is
tags+level → level alone → adjacent levels, with NO tags-alone step
(only warm-ups/cool-downs have the full five-step ladder). -/
theorem claim_C7 (u : RawUserData) (colls : Collections) (day : String) :
    (∀ (repo : List Item) (queries : List Query) (limit : Nat),
      execute_query_with_fallbacks repo queries limit =
        firstNonEmptySpec (queries.map
          (fun q => (repo.filter (matchesQuery q)).take limit) ++ [repo.take limit])) ∧
    (fetch_stretching u colls day []).1 =
      firstNonEmptySpec ((stretchingQueries (experienceLevelOf u)
          (map_goals_to_valid_tags (goalsOf u) "stretching")).map
        (fun q => (colls.stretching.filter (matchesQuery q)).take 3)
        ++ [colls.stretching.take 3]) ∧
    (∀ (queries : List Query) (limit : Nat),
      execute_query_with_fallbacks [] queries limit = []) := by
  refine ⟨execute_first_nonempty, ?_, execute_empty_of_empty_repo⟩
  have hmiss : (fetch_stretching u colls day []).1 =
      execute_query_with_fallbacks colls.stretching
        (stretchingQueries (experienceLevelOf u)
          (map_goals_to_valid_tags (goalsOf u) "stretching")) 3 := rfl
  rw [hmiss, execute_first_nonempty]

/-- Witness for C7 at a concrete request and repository. -/
theorem claim_C7_witness :
    (fetch_stretching u15 colls0 "d1" []).1 =
      firstNonEmptySpec ((stretchingQueries (experienceLevelOf u15)
          (map_goals_to_valid_tags (goalsOf u15) "stretching")).map
        (fun q => (colls0.stretching.filter (matchesQuery q)).take 3)
        ++ [colls0.stretching.take 3]) :=
  (claim_C7 u15 colls0 "d1").2.1

/-- A stretching document matching the goal tags but not the requested
level. -/
def stA : Item :=
  { oid := some 11, name := some "sA", tags := ["morning"],
    difficulty := some "advanced" }

/-- A stretching document matching neither tags nor level. -/
def stB : Item :=
  { oid := some 12, name := some "sB", difficulty := some "advanced" }

/-- A repository whose stretching collection contains `stA, stB`. -/
def collsC7 : Collections := { stretching := [stA, stB] }

/-- A beginner request with the Flexibility goal. -/
def uC7 : RawUserData := { u15 with fitness_goals := some (.vListStr ["Flexibility"]) }

/-- C7 counterexample: for stretching, the implemented ladder has no
tags-alone step: with a beginner request over `[stA, stB]` the code
falls through to the unfiltered cap and returns both items, while the
claimed ladder's step (2) (tags alone) would return `[stA]` only. -/
theorem claim_C7_counterexample :
    (fetch_stretching uC7 collsC7 "d1" []).1 = [stA, stB] ∧
    execute_query_with_fallbacks collsC7.stretching
      (claimedStretchingQueries (experienceLevelOf uC7)
        (map_goals_to_valid_tags (goalsOf uC7) "stretching")) 3 = [stA] ∧
    ¬((fetch_stretching uC7 collsC7 "d1" []).1 =
      execute_query_with_fallbacks collsC7.stretching
        (claimedStretchingQueries (experienceLevelOf uC7)
          (map_goals_to_valid_tags (goalsOf uC7) "stretching")) 3) :=
  ⟨by rfl, by rfl, by decide⟩

/-! ### Claim C9: per-item difficulty resolution -/

/-- The resolution policy in the amended claim's words: the requested
level when the item defines it; otherwise intermediate for an advanced
request when present; otherwise beginner when present; otherwise the
item's first-listed entry (which may be a higher level than requested);
`none` when the item defines no entries. -/
def resolvedLevelSpec (ex : Item) (level : String) : Option String :=
  if hasLevel ex level then some level
  else if level = "advanced" ∧ hasLevel ex "intermediate" = true then some "intermediate"
  else if hasLevel ex "beginner" then some "beginner"
  else (ex.difficulty_levels.head?).map Prod.fst

theorem effectiveLevel_eq_spec (ex : Item) (level : String) :
    effectiveLevelOf ex level = resolvedLevelSpec ex level := by
  unfold effectiveLevelOf resolvedLevelSpec
  by_cases h1 : hasLevel ex level = true
  · simp [h1]
  · have h1' : hasLevel ex level = false := by
      cases h : hasLevel ex level
      · rfl
      · exact absurd h h1
    by_cases h2 : hasLevel ex "intermediate" = true ∧ level = "advanced"
    · have hb : (hasLevel ex "intermediate" && (level == "advanced")) = true := by
        rw [h2.1, beq_iff_eq.mpr h2.2]; rfl
      simp [h1', hb, h2.1, h2.2]
    · have hb : (hasLevel ex "intermediate" && (level == "advanced")) = false := by
        cases hi : hasLevel ex "intermediate" with
        | false => rfl
        | true =>
          cases hl : (level == "advanced") with
          | false => rfl
          | true => exact absurd ⟨hi, beq_iff_eq.mp hl⟩ h2
      have h2' : ¬(level = "advanced" ∧ hasLevel ex "intermediate" = true) :=
        fun hc => h2 ⟨hc.2, hc.1⟩
      simp [h1', hb, h2']

theorem resolvedLevel_is_key {ex : Item} {level l : String}
    (h : resolvedLevelSpec ex level = some l) :
    (List.lookup l ex.difficulty_levels).isSome = true := by
  unfold resolvedLevelSpec at h
  split_ifs at h with h1 h2 h3
  · cases h; exact h1
  · cases h; exact h2.2
  · cases h; exact h3
  · cases hhd : ex.difficulty_levels with
    | nil => rw [hhd] at h; cases h
    | cons kv rest =>
      rw [hhd] at h
      simp only [List.head?, Option.map_some] at h
      cases h
      simp [List.lookup]

/-- C9 (amended): sets/reps are resolved by: requested level; else
intermediate for an advanced request; else beginner; else the item's
first-listed entry, which may be a HIGHER level than requested — and an
item with no difficulty entries (or whose resolved key is the empty
string) contributes no block; the block's sets/reps are read from the
resolved entry. -/
theorem claim_C9 (t : Int) (lvl : String) :
    (∀ ex : Item, effectiveLevelOf ex lvl = resolvedLevelSpec ex lvl) ∧
    (∀ ex : Item, ex.difficulty_levels = [] →
      prepare_exercise_components [ex] t lvl 1 = []) ∧
    (∀ (ex : Item) (l : String), resolvedLevelSpec ex lvl = some l →
      l.isEmpty = false →
      ∃ led : LevelData, List.lookup l ex.difficulty_levels = some led ∧
        (prepare_exercise_components [ex] t lvl 1).map
          (fun b => b.activity.exercises.map (fun e => (e.sets, e.reps))) =
          [[(led.sets.getD "N/A", led.reps.getD "N/A")]]) := by
  refine ⟨fun ex => effectiveLevel_eq_spec ex lvl, ?_, ?_⟩
  · intro ex hnil
    unfold prepare_exercise_components
    simp only [List.length_cons, List.length_nil]
    rw [List.take_of_length_le (by simp)]
    simp only [List.filterMap]
    rw [effectiveLevel_eq_spec]
    unfold resolvedLevelSpec hasLevel
    simp [hnil]
  · intro ex l hres hne
    obtain ⟨led, hled⟩ := Option.isSome_iff_exists.mp (resolvedLevel_is_key hres)
    refine ⟨led, hled, ?_⟩
    unfold prepare_exercise_components
    rw [List.take_of_length_le (by simp)]
    simp only [List.filterMap]
    rw [effectiveLevel_eq_spec, hres]
    simp [hne, hled]

/-- An exercise item defining only an `advanced` entry. -/
def exAdv : Item :=
  { oid := some 21, name := some "adv",
    difficulty_levels := [("advanced", { sets := some "5x5", reps := some "5" })] }

/-- C9 counterexample: for a `beginner` request on an item defining only
an `advanced` entry, the downward order advanced→intermediate→beginner
offers no entry at or below the request, yet the code emits a block and
takes its sets/reps from the higher `advanced` entry. -/
theorem claim_C9_counterexample :
    hasLevel exAdv "beginner" = false ∧
    hasLevel exAdv "intermediate" = false ∧
    exAdv.difficulty_levels ≠ [] ∧
    effectiveLevelOf exAdv "beginner" = some "advanced" ∧
    (prepare_exercise_components [exAdv] 5 "beginner" 1).map
      (fun b => b.activity.exercises.map (fun e => (e.sets, e.reps))) =
      [[("5x5", "5")]] :=
  ⟨by rfl, by rfl, by decide, by rfl, by rfl⟩

/-- Witness for the amended C9 at a concrete item and level. -/
theorem claim_C9_witness :
    ∃ led : LevelData, List.lookup "advanced" exAdv.difficulty_levels = some led ∧
      (prepare_exercise_components [exAdv] 5 "beginner" 1).map
        (fun b => b.activity.exercises.map (fun e => (e.sets, e.reps))) =
        [[(led.sets.getD "N/A", led.reps.getD "N/A")]] :=
  (claim_C9 5 "beginner").2.2 exAdv "advanced" (by rfl) (by rfl)

/-! ### Claim C6: the cache is module-global, not per-call -/

/-- C6 (amended): the content cache is module-global and persists across
plan-generation calls: re-running any caching fetcher with the same key
— even against a DIFFERENT repository — is a cache hit that returns the
items cached by the earlier call and leaves the cache unchanged.  A
later invocation is therefore affected by an earlier one whenever their
(category, level, goals, date) keys coincide. -/
theorem claim_C6 :
    (∀ (level day : String) (colls colls' : Collections) (c : Cache),
      fetch_breathwork level colls' day (fetch_breathwork level colls day c).2 =
        ((fetch_breathwork level colls day c).1, (fetch_breathwork level colls day c).2)) ∧
    (∀ (level day : String) (colls colls' : Collections) (c : Cache),
      fetch_meditations level colls' day (fetch_meditations level colls day c).2 =
        ((fetch_meditations level colls day c).1, (fetch_meditations level colls day c).2)) ∧
    (∀ (u : RawUserData) (day : String) (colls colls' : Collections) (c : Cache),
      fetch_stretching u colls' day (fetch_stretching u colls day c).2 =
        ((fetch_stretching u colls day c).1, (fetch_stretching u colls day c).2)) ∧
    (∀ (name : String) (u : RawUserData) (day : String)
        (colls colls' : Collections) (c : Cache),
      fetch_routine_by_level_and_tags name u colls' day
          (fetch_routine_by_level_and_tags name u colls day c).2 =
        ((fetch_routine_by_level_and_tags name u colls day c).1,
          (fetch_routine_by_level_and_tags name u colls day c).2)) :=
  ⟨fun _ _ _ _ _ => cached_fetch_stable (Ext.refl _) _,
   fun _ _ _ _ _ => cached_fetch_stable (Ext.refl _) _,
   fun _ _ _ _ _ => cached_fetch_stable (Ext.refl _) _,
   fun _ _ _ _ _ _ => cached_fetch_stable (Ext.refl _) _⟩

/-- A valid 30-minute request (the 30-minute bucket schedules
breathwork). -/
def u30 : RawUserData := { u15 with workout_duration := some (.vInt 30) }

/-- A different breathwork document. -/
def brW2 : Item :=
  { oid := some 51, name := some "b2", difficulty := some "beginner",
    pre_workout := some true }

/-- A changed repository: same as `colls0` except the breathwork
collection now contains only `brW2`. -/
def collsB : Collections := { colls0 with breathwork := [brW2] }

/-- First generation, over `colls0`, from an empty cache. -/
def resA30 : Plan × Cache :=
  match generate_weekly_plan rngModel u30 colls0 [] "t1" with
  | .ok r => r
  | .error _ =>
    ({ metadata := { generated_at := "", start_date := none, goals := [],
                     level := "", preferred_rest_day := none }, schedule := [] }, [])

/-- Second generation, over the changed repository `collsB`, starting
from the cache the first generation left behind. -/
def resBafter : Plan × Cache :=
  match generate_weekly_plan rngModel u30 collsB resA30.2 "t2" with
  | .ok r => r
  | .error _ =>
    ({ metadata := { generated_at := "", start_date := none, goals := [],
                     level := "", preferred_rest_day := none }, schedule := [] }, [])

/-- The same second generation, but from an empty cache. -/
def resBfresh : Plan × Cache :=
  match generate_weekly_plan rngModel u30 collsB [] "t2" with
  | .ok r => r
  | .error _ =>
    ({ metadata := { generated_at := "", start_date := none, goals := [],
                     level := "", preferred_rest_day := none }, schedule := [] }, [])

/-- C6 counterexample: a later `generate_weekly_plan` invocation IS
affected by an earlier one's cache: over the changed repository the
fresh run schedules the new breathwork item `b2`, while the run reusing
the earlier cache still schedules the stale `b` — so its result is not
that of an independent invocation. -/
theorem claim_C6_counterexample :
    ((List.lookup "d1" resBafter.1.schedule).bind
      (fun e => (e.schedule[1]?).map (fun b => b.activity.name))) = some "b" ∧
    ((List.lookup "d1" resBfresh.1.schedule).bind
      (fun e => (e.schedule[1]?).map (fun b => b.activity.name))) = some "b2" ∧
    resBafter.1.schedule ≠ resBfresh.1.schedule := by
  have h1 : ((List.lookup "d1" resBafter.1.schedule).bind
      (fun e => (e.schedule[1]?).map (fun b => b.activity.name))) = some "b" := by rfl
  have h2 : ((List.lookup "d1" resBfresh.1.schedule).bind
      (fun e => (e.schedule[1]?).map (fun b => b.activity.name))) = some "b2" := by rfl
  refine ⟨h1, h2, fun heq => ?_⟩
  rw [heq] at h1
  exact absurd (h1.symm.trans h2) (by decide)

/-! ### Claim C8: empty categories degrade gracefully -/

/-- The six content categories. -/
inductive Category where
  | exercises | warm_ups | cool_downs | stretching | meditation | breathwork
deriving DecidableEq, Repr

/-- A category's collection in the repository. -/
def Category.repoOf (cat : Category) (colls : Collections) : List Item :=
  match cat with
  | .exercises => colls.exercises
  | .warm_ups => colls.warm_ups
  | .cool_downs => colls.cool_downs
  | .stretching => colls.stretching
  | .meditation => colls.meditation
  | .breathwork => colls.breathwork

/-- The `type` tag the planner stamps on a category's blocks. -/
def Category.blockType (cat : Category) : String :=
  match cat with
  | .exercises => "exercise"
  | .warm_ups => "warm_up"
  | .cool_downs => "cool_down"
  | .stretching => "stretching"
  | .meditation => "meditation"
  | .breathwork => "breathwork"

/-- Whether the duration allocator schedules the category at all
(breathwork and stretching are gated on a positive minute budget). -/
def Category.includedAt (cat : Category) (d : Durations) : Bool :=
  match cat with
  | .breathwork => d.include_breathwork
  | .stretching => d.include_stretching
  | _ => true

/-- First character of a cache key; the five caching categories' key
prefixes start with five distinct characters. -/
def keyHead (s : String) : Option Char := s.data.head?

theorem keyHead_breathwork (l d : String) :
    keyHead ("breathwork_" ++ l ++ "_" ++ d) = some 'b' := by
  cases l; cases d; rfl

theorem keyHead_meditation (l d : String) :
    keyHead ("meditation_" ++ l ++ "_" ++ d) = some 'm' := by
  cases l; cases d; rfl

theorem keyHead_stretching (l g d : String) :
    keyHead ("stretching_" ++ l ++ "_" ++ g ++ "_" ++ d) = some 's' := by
  cases l; cases g; cases d; rfl

theorem keyHead_warm_ups (l g d : String) :
    keyHead ("warm_ups" ++ "_" ++ l ++ "_" ++ g ++ "_" ++ d) = some 'w' := by
  cases l; cases g; cases d; rfl

theorem keyHead_cool_downs (l g d : String) :
    keyHead ("cool_downs" ++ "_" ++ l ++ "_" ++ g ++ "_" ++ d) = some 'c' := by
  cases l; cases g; cases d; rfl

theorem lookup_mem {c : Cache} {k : String} {v : List Item}
    (h : List.lookup k c = some v) : (k, v) ∈ c := by
  induction c with
  | nil => cases h
  | cons kv rest ih =>
    rcases kv with ⟨k', v'⟩
    rw [List.lookup] at h
    cases hbe : (k == k') with
    | true =>
      rw [hbe] at h
      cases h
      have : k = k' := beq_iff_eq.mp hbe
      subst this
      exact List.mem_cons_self _ _
    | false =>
      rw [hbe] at h
      exact List.mem_cons_of_mem _ (ih h)

/-- The cache states reachable in one `generate_weekly_plan` run for a
fixed request `u` and repository `colls`, starting from the empty cache:
every entry's value is exactly the fallback-query result its category
prefix determines (the cache keys of distinct categories start with
distinct characters). -/
def CacheOkU (u : RawUserData) (colls : Collections) (c : Cache) : Prop :=
  ∀ kv ∈ c,
    (keyHead kv.1 = some 'b' → kv.2 = execute_query_with_fallbacks colls.breathwork
      (breathworkQueries (experienceLevelOf u)) 3) ∧
    (keyHead kv.1 = some 'm' → kv.2 = execute_query_with_fallbacks colls.meditation
      (meditationQueries (experienceLevelOf u)) 3) ∧
    (keyHead kv.1 = some 's' → kv.2 = execute_query_with_fallbacks colls.stretching
      (stretchingQueries (experienceLevelOf u)
        (map_goals_to_valid_tags (goalsOf u) "stretching")) 3) ∧
    (keyHead kv.1 = some 'w' → kv.2 = execute_query_with_fallbacks colls.warm_ups
      (routineQueries (experienceLevelOf u)
        (map_goals_to_valid_tags (goalsOf u) "warm_ups")) 3) ∧
    (keyHead kv.1 = some 'c' → kv.2 = execute_query_with_fallbacks colls.cool_downs
      (routineQueries (experienceLevelOf u)
        (map_goals_to_valid_tags (goalsOf u) "cool_downs")) 3)

theorem cacheOkU_nil (u : RawUserData) (colls : Collections) : CacheOkU u colls [] :=
  fun kv hkv => absurd hkv (List.not_mem_nil kv)

theorem repoFor_warm_ups (colls : Collections) : repoFor colls "warm_ups" = colls.warm_ups := rfl

theorem repoFor_cool_downs (colls : Collections) :
    repoFor colls "cool_downs" = colls.cool_downs := rfl

theorem fetch_breathwork_valueOk {u : RawUserData} {colls : Collections} {c : Cache}
    (hok : CacheOkU u colls c) (day : String) :
    (fetch_breathwork (experienceLevelOf u) colls day c).1 =
      execute_query_with_fallbacks colls.breathwork
        (breathworkQueries (experienceLevelOf u)) 3 ∧
    CacheOkU u colls (fetch_breathwork (experienceLevelOf u) colls day c).2 := by
  unfold fetch_breathwork cached_fetch
  cases hl : List.lookup ("breathwork_" ++ experienceLevelOf u ++ "_" ++ day) c with
  | some v =>
    exact ⟨(hok _ (lookup_mem hl)).1 (keyHead_breathwork _ _), hok⟩
  | none =>
    refine ⟨rfl, ?_⟩
    intro kv hkv
    rcases List.mem_cons.mp hkv with h | h
    · subst h
      refine ⟨fun _ => rfl, fun habs => ?_, fun habs => ?_, fun habs => ?_, fun habs => ?_⟩ <;>
        · rw [keyHead_breathwork] at habs
          exact absurd habs (by decide)
    · exact hok kv h

theorem fetch_meditations_valueOk {u : RawUserData} {colls : Collections} {c : Cache}
    (hok : CacheOkU u colls c) (day : String) :
    (fetch_meditations (experienceLevelOf u) colls day c).1 =
      execute_query_with_fallbacks colls.meditation
        (meditationQueries (experienceLevelOf u)) 3 ∧
    CacheOkU u colls (fetch_meditations (experienceLevelOf u) colls day c).2 := by
  unfold fetch_meditations cached_fetch
  cases hl : List.lookup ("meditation_" ++ experienceLevelOf u ++ "_" ++ day) c with
  | some v =>
    exact ⟨(hok _ (lookup_mem hl)).2.1 (keyHead_meditation _ _), hok⟩
  | none =>
    refine ⟨rfl, ?_⟩
    intro kv hkv
    rcases List.mem_cons.mp hkv with h | h
    · subst h
      refine ⟨fun habs => ?_, fun _ => rfl, fun habs => ?_, fun habs => ?_, fun habs => ?_⟩ <;>
        · rw [keyHead_meditation] at habs
          exact absurd habs (by decide)
    · exact hok kv h

theorem fetch_stretching_valueOk {u : RawUserData} {colls : Collections} {c : Cache}
    (hok : CacheOkU u colls c) (day : String) :
    (fetch_stretching u colls day c).1 =
      execute_query_with_fallbacks colls.stretching
        (stretchingQueries (experienceLevelOf u)
          (map_goals_to_valid_tags (goalsOf u) "stretching")) 3 ∧
    CacheOkU u colls (fetch_stretching u colls day c).2 := by
  have hz : fetch_stretching u colls day c =
      cached_fetch ("stretching_" ++ experienceLevelOf u ++ "_" ++
          sortedGoalsKey (goalsOf u) ++ "_" ++ day)
        (execute_query_with_fallbacks colls.stretching
          (stretchingQueries (experienceLevelOf u)
            (map_goals_to_valid_tags (goalsOf u) "stretching")) 3) c := rfl
  rw [hz]
  unfold cached_fetch
  cases hl : List.lookup ("stretching_" ++ experienceLevelOf u ++ "_" ++
      sortedGoalsKey (goalsOf u) ++ "_" ++ day) c with
  | some v =>
    exact ⟨(hok _ (lookup_mem hl)).2.2.1 (keyHead_stretching _ _ _), hok⟩
  | none =>
    refine ⟨rfl, ?_⟩
    intro kv hkv
    rcases List.mem_cons.mp hkv with h | h
    · subst h
      refine ⟨fun habs => ?_, fun habs => ?_, fun _ => rfl, fun habs => ?_, fun habs => ?_⟩ <;>
        · rw [keyHead_stretching] at habs
          exact absurd habs (by decide)
    · exact hok kv h

theorem fetch_warm_ups_valueOk {u : RawUserData} {colls : Collections} {c : Cache}
    (hok : CacheOkU u colls c) (day : String) :
    (fetch_warm_ups u colls day c).1 =
      execute_query_with_fallbacks colls.warm_ups
        (routineQueries (experienceLevelOf u)
          (map_goals_to_valid_tags (goalsOf u) "warm_ups")) 3 ∧
    CacheOkU u colls (fetch_warm_ups u colls day c).2 := by
  have hz : fetch_warm_ups u colls day c =
      cached_fetch ("warm_ups" ++ "_" ++ experienceLevelOf u ++ "_" ++
          sortedGoalsKey (goalsOf u) ++ "_" ++ day)
        (execute_query_with_fallbacks colls.warm_ups
          (routineQueries (experienceLevelOf u)
            (map_goals_to_valid_tags (goalsOf u) "warm_ups")) 3) c := rfl
  rw [hz]
  unfold cached_fetch
  cases hl : List.lookup ("warm_ups" ++ "_" ++ experienceLevelOf u ++ "_" ++
      sortedGoalsKey (goalsOf u) ++ "_" ++ day) c with
  | some v =>
    exact ⟨(hok _ (lookup_mem hl)).2.2.2.1 (keyHead_warm_ups _ _ _), hok⟩
  | none =>
    refine ⟨rfl, ?_⟩
    intro kv hkv
    rcases List.mem_cons.mp hkv with h | h
    · subst h
      refine ⟨fun habs => ?_, fun habs => ?_, fun habs => ?_, fun _ => rfl, fun habs => ?_⟩ <;>
        · rw [keyHead_warm_ups] at habs
          exact absurd habs (by decide)
    · exact hok kv h

theorem fetch_cool_downs_valueOk {u : RawUserData} {colls : Collections} {c : Cache}
    (hok : CacheOkU u colls c) (day : String) :
    (fetch_cool_downs u colls day c).1 =
      execute_query_with_fallbacks colls.cool_downs
        (routineQueries (experienceLevelOf u)
          (map_goals_to_valid_tags (goalsOf u) "cool_downs")) 3 ∧
    CacheOkU u colls (fetch_cool_downs u colls day c).2 := by
  have hz : fetch_cool_downs u colls day c =
      cached_fetch ("cool_downs" ++ "_" ++ experienceLevelOf u ++ "_" ++
          sortedGoalsKey (goalsOf u) ++ "_" ++ day)
        (execute_query_with_fallbacks colls.cool_downs
          (routineQueries (experienceLevelOf u)
            (map_goals_to_valid_tags (goalsOf u) "cool_downs")) 3) c := rfl
  rw [hz]
  unfold cached_fetch
  cases hl : List.lookup ("cool_downs" ++ "_" ++ experienceLevelOf u ++ "_" ++
      sortedGoalsKey (goalsOf u) ++ "_" ++ day) c with
  | some v =>
    exact ⟨(hok _ (lookup_mem hl)).2.2.2.2 (keyHead_cool_downs _ _ _), hok⟩
  | none =>
    refine ⟨rfl, ?_⟩
    intro kv hkv
    rcases List.mem_cons.mp hkv with h | h
    · subst h
      refine ⟨fun habs => ?_, fun habs => ?_, fun habs => ?_, fun habs => ?_, fun _ => rfl⟩ <;>
        · rw [keyHead_cool_downs] at habs
          exact absurd habs (by decide)
    · exact hok kv h

theorem execute_subset (repo : List Item) (queries : List Query) (limit : Nat) :
    ∀ i ∈ execute_query_with_fallbacks repo queries limit, i ∈ repo := by
  induction queries with
  | nil =>
    intro i hi
    exact List.take_subset _ _ hi
  | cons q qs ih =>
    intro i hi
    rw [execute_query_with_fallbacks] at hi
    by_cases he : ((repo.filter (matchesQuery q)).take limit).isEmpty = true
    · simp only [he, ite_true] at hi
      exact ih i hi
    · have he' : ((repo.filter (matchesQuery q)).take limit).isEmpty = false := by
        cases h : ((repo.filter (matchesQuery q)).take limit).isEmpty
        · rfl
        · exact absurd h he
      simp only [he', Bool.false_eq_true, ite_false] at hi
      exact List.mem_of_mem_filter (List.take_subset _ _ hi)

theorem execute_ne_nil {repo : List Item} (queries : List Query) {limit : Nat}
    (hr : repo ≠ []) (hl : limit ≠ 0) :
    execute_query_with_fallbacks repo queries limit ≠ [] := by
  induction queries with
  | nil =>
    rw [execute_query_with_fallbacks]
    intro hc
    rcases List.take_eq_nil_iff.mp hc with h | h
    · exact hl h
    · exact hr h
  | cons q qs ih =>
    rw [execute_query_with_fallbacks]
    by_cases he : ((repo.filter (matchesQuery q)).take limit).isEmpty = true
    · simpa only [he, ite_true] using ih
    · have he' : ((repo.filter (matchesQuery q)).take limit).isEmpty = false := by
        cases h : ((repo.filter (matchesQuery q)).take limit).isEmpty
        · rfl
        · exact absurd h he
      simp only [he', Bool.false_eq_true, ite_false]
      intro hc
      rw [hc] at he'
      simp at he'

theorem max_exercises_pos (t : Int) : 0 < (get_component_durations t).max_exercises := by
  simp only [get_component_durations]
  split_ifs <;> decide

/-- A well-formed exercise collection: every item defines at least one
difficulty entry and every entry's key is a non-empty level name. -/
def exercisesWF (colls : Collections) : Prop :=
  ∀ i ∈ colls.exercises, i.difficulty_levels ≠ [] ∧
    ∀ kv ∈ i.difficulty_levels, kv.1 ≠ ""

theorem effectiveLevel_wf {ex : Item} (lvl : String)
    (h1 : ex.difficulty_levels ≠ [])
    (h2 : ∀ kv ∈ ex.difficulty_levels, kv.1 ≠ "")
    (h3 : lvl ≠ "") :
    ∃ l : String, effectiveLevelOf ex lvl = some l ∧ l.isEmpty = false := by
  have hne : ∀ s : String, s ≠ "" → s.isEmpty = false := by
    intro s hs
    cases h : s.isEmpty
    · rfl
    · exact absurd ((String.isEmpty_iff s).mp h) hs
  unfold effectiveLevelOf
  split_ifs with c1 c2 c3
  · exact ⟨lvl, rfl, hne _ h3⟩
  · exact ⟨"intermediate", rfl, by decide⟩
  · exact ⟨"beginner", rfl, by decide⟩
  · cases hhd : ex.difficulty_levels with
    | nil => exact absurd hhd h1
    | cons kv rest =>
      refine ⟨kv.1, by simp [hhd], hne _ (h2 kv (hhd ▸ List.mem_cons_self kv rest))⟩

theorem prepare_exercise_ne_nil {exs : List Item} (t : Int) {lvl : String} {n : Nat}
    (hne : exs ≠ []) (hn : 0 < n)
    (hwf : ∀ i ∈ exs, i.difficulty_levels ≠ [] ∧ ∀ kv ∈ i.difficulty_levels, kv.1 ≠ "")
    (hlvl : lvl ≠ "") :
    prepare_exercise_components exs t lvl n ≠ [] := by
  cases exs with
  | nil => exact absurd rfl hne
  | cons a as =>
    unfold prepare_exercise_components
    have hmin : 0 < min (a :: as).length n := by
      simp only [List.length_cons]
      exact lt_min (Nat.succ_pos _) hn
    obtain ⟨k, hk⟩ := Nat.exists_eq_succ_of_ne_zero (Nat.pos_iff_ne_zero.mp hmin)
    rw [hk, List.take_succ_cons]
    obtain ⟨hwf1, hwf2⟩ := hwf a (List.mem_cons_self a as)
    obtain ⟨l, hl, hle⟩ := effectiveLevel_wf lvl hwf1 hwf2 hlvl
    simp only [List.filterMap, hl, hle, Bool.false_eq_true, ite_false]
    intro hc
    cases hc

theorem level_mem_ne_empty {u : RawUserData}
    (h : experienceLevelOf u ∈ DIFFICULTY_LEVELS) : experienceLevelOf u ≠ "" := by
  simp only [DIFFICULTY_LEVELS, List.mem_cons, List.not_mem_nil, or_false] at h
  rcases h with h | h | h <;> rw [h] <;> decide

theorem execute_isEmpty (repo : List Item) (queries : List Query) {limit : Nat}
    (hl : limit ≠ 0) :
    (execute_query_with_fallbacks repo queries limit).isEmpty = repo.isEmpty := by
  cases hre : repo with
  | nil => rw [execute_empty_of_empty_repo]
  | cons a as =>
    have h : execute_query_with_fallbacks (a :: as) queries limit ≠ [] :=
      execute_ne_nil queries (by simp) hl
    cases h2 : (execute_query_with_fallbacks (a :: as) queries limit).isEmpty with
    | true => exact absurd (List.isEmpty_iff.mp h2) h
    | false => rfl

theorem select_isSome (rng : RNG) (l : List Item) (s o : Nat) :
    (select_activity_with_seed rng l s o).isSome = !l.isEmpty := by
  cases l <;> simp [select_activity_with_seed]

theorem prepare_warmup_isSome (rng : RNG) (l : List Item) (s : Nat) (t : Int) :
    (prepare_warmup_component rng l s t).isSome = !l.isEmpty := by
  rw [← select_isSome rng l s 0]
  unfold prepare_warmup_component
  cases hsel : select_activity_with_seed rng l s 0 <;> simp [hsel]

theorem prepare_breathwork_isSome (rng : RNG) (l : List Item) (s : Nat) (t : Int) :
    (prepare_breathwork_component rng l s t).isSome = !l.isEmpty := by
  rw [← select_isSome rng l s 1]
  unfold prepare_breathwork_component
  cases hsel : select_activity_with_seed rng l s 1 <;> simp [hsel]

theorem prepare_stretching_isSome (rng : RNG) (l : List Item) (s : Nat) (t : Int) :
    (prepare_stretching_component rng l s t).isSome = !l.isEmpty := by
  rw [← select_isSome rng l s 2]
  unfold prepare_stretching_component
  cases hsel : select_activity_with_seed rng l s 2 <;> simp [hsel]

theorem prepare_cooldown_isSome (rng : RNG) (l : List Item) (s : Nat) (t : Int) :
    (prepare_cooldown_component rng l s t).isSome = !l.isEmpty := by
  rw [← select_isSome rng l s 3]
  unfold prepare_cooldown_component
  cases hsel : select_activity_with_seed rng l s 3 <;> simp [hsel]

theorem prepare_meditation_isSome (rng : RNG) (l : List Item) (s : Nat) (t : Int) :
    (prepare_meditation_component rng l s t).isSome = !l.isEmpty := by
  rw [← select_isSome rng l s 4]
  unfold prepare_meditation_component
  cases hsel : select_activity_with_seed rng l s 4 <;> simp [hsel]

theorem bdp_warm_isSome (rng : RNG) (u : RawUserData) (colls : Collections)
    (day : String) (c : Cache) (hok : CacheOkU u colls c) :
    (build_day_parts rng u colls day c).1.warm_up.isSome = !colls.warm_ups.isEmpty := by
  simp only [build_day_parts]
  rw [(fetch_warm_ups_valueOk hok day).1]
  rw [execute_isEmpty _ _ (by decide)]
  cases hre : colls.warm_ups.isEmpty with
  | true => simp
  | false =>
    simp only [Bool.false_eq_true, ite_false]
    rw [prepare_warmup_isSome, execute_isEmpty _ _ (by decide), hre]

theorem bdp_breath_isSome (rng : RNG) (u : RawUserData) (colls : Collections)
    (day : String) (c : Cache) (hok : CacheOkU u colls c) :
    (build_day_parts rng u colls day c).1.breathwork.isSome =
      ((get_component_durations (workoutDurationOf u)).include_breathwork &&
        !colls.breathwork.isEmpty) := by
  simp only [build_day_parts]
  cases hbi : (get_component_durations (workoutDurationOf u)).include_breathwork with
  | false => simp [hbi]
  | true =>
    simp only [hbi, ite_true, Bool.true_and]
    rw [(fetch_breathwork_valueOk (fetch_warm_ups_valueOk hok day).2 day).1]
    rw [execute_isEmpty _ _ (by decide)]
    cases hre : colls.breathwork.isEmpty with
    | true => simp
    | false =>
      simp only [hre, Bool.not_false, Bool.true_and, ite_true]
      rw [prepare_breathwork_isSome, execute_isEmpty _ _ (by decide), hre]
      decide

theorem bdp_stretch_isSome (rng : RNG) (u : RawUserData) (colls : Collections)
    (day : String) (c : Cache) (hok : CacheOkU u colls c) :
    (build_day_parts rng u colls day c).1.stretching.isSome =
      ((get_component_durations (workoutDurationOf u)).include_stretching &&
        !colls.stretching.isEmpty) := by
  have hok1 : CacheOkU u colls (fetch_warm_ups u colls day c).2 :=
    (fetch_warm_ups_valueOk hok day).2
  have hok2 : CacheOkU u colls
      ((if (get_component_durations (workoutDurationOf u)).include_breathwork = true
        then fetch_breathwork (experienceLevelOf u) colls day (fetch_warm_ups u colls day c).2
        else ([], (fetch_warm_ups u colls day c).2)).2) := by
    split
    · exact (fetch_breathwork_valueOk hok1 day).2
    · exact hok1
  simp only [build_day_parts]
  cases hsi : (get_component_durations (workoutDurationOf u)).include_stretching with
  | false => simp [hsi]
  | true =>
    simp only [hsi, ite_true, Bool.true_and]
    rw [(fetch_stretching_valueOk hok2 day).1]
    rw [execute_isEmpty _ _ (by decide)]
    cases hre : colls.stretching.isEmpty with
    | true => simp
    | false =>
      simp only [hre, Bool.not_false, ite_true]
      rw [prepare_stretching_isSome, execute_isEmpty _ _ (by decide), hre]
      decide

theorem bdp_cool_isSome (rng : RNG) (u : RawUserData) (colls : Collections)
    (day : String) (c : Cache) (hok : CacheOkU u colls c) :
    (build_day_parts rng u colls day c).1.cool_down.isSome = !colls.cool_downs.isEmpty := by
  have hok1 : CacheOkU u colls (fetch_warm_ups u colls day c).2 :=
    (fetch_warm_ups_valueOk hok day).2
  have hok2 : CacheOkU u colls
      ((if (get_component_durations (workoutDurationOf u)).include_breathwork = true
        then fetch_breathwork (experienceLevelOf u) colls day (fetch_warm_ups u colls day c).2
        else ([], (fetch_warm_ups u colls day c).2)).2) := by
    split
    · exact (fetch_breathwork_valueOk hok1 day).2
    · exact hok1
  have hok3 : CacheOkU u colls
      ((if (get_component_durations (workoutDurationOf u)).include_stretching = true
        then fetch_stretching u colls day
          ((if (get_component_durations (workoutDurationOf u)).include_breathwork = true
            then fetch_breathwork (experienceLevelOf u) colls day
              (fetch_warm_ups u colls day c).2
            else ([], (fetch_warm_ups u colls day c).2)).2)
        else ([], (if (get_component_durations (workoutDurationOf u)).include_breathwork = true
            then fetch_breathwork (experienceLevelOf u) colls day
              (fetch_warm_ups u colls day c).2
            else ([], (fetch_warm_ups u colls day c).2)).2)).2) := by
    split
    · exact (fetch_stretching_valueOk hok2 day).2
    · exact hok2
  simp only [build_day_parts]
  rw [(fetch_cool_downs_valueOk hok3 day).1]
  rw [execute_isEmpty _ _ (by decide)]
  cases hre : colls.cool_downs.isEmpty with
  | true => simp
  | false =>
    simp only [Bool.false_eq_true, ite_false]
    rw [prepare_cooldown_isSome, execute_isEmpty _ _ (by decide), hre]

theorem bdp_med_isSome (rng : RNG) (u : RawUserData) (colls : Collections)
    (day : String) (c : Cache) (hok : CacheOkU u colls c) :
    (build_day_parts rng u colls day c).1.meditation.isSome = !colls.meditation.isEmpty ∧
    CacheOkU u colls (build_day_parts rng u colls day c).2 := by
  have hok1 : CacheOkU u colls (fetch_warm_ups u colls day c).2 :=
    (fetch_warm_ups_valueOk hok day).2
  have hok2 : CacheOkU u colls
      ((if (get_component_durations (workoutDurationOf u)).include_breathwork = true
        then fetch_breathwork (experienceLevelOf u) colls day (fetch_warm_ups u colls day c).2
        else ([], (fetch_warm_ups u colls day c).2)).2) := by
    split
    · exact (fetch_breathwork_valueOk hok1 day).2
    · exact hok1
  have hok3 : CacheOkU u colls
      ((if (get_component_durations (workoutDurationOf u)).include_stretching = true
        then fetch_stretching u colls day
          ((if (get_component_durations (workoutDurationOf u)).include_breathwork = true
            then fetch_breathwork (experienceLevelOf u) colls day
              (fetch_warm_ups u colls day c).2
            else ([], (fetch_warm_ups u colls day c).2)).2)
        else ([], (if (get_component_durations (workoutDurationOf u)).include_breathwork = true
            then fetch_breathwork (experienceLevelOf u) colls day
              (fetch_warm_ups u colls day c).2
            else ([], (fetch_warm_ups u colls day c).2)).2)).2) := by
    split
    · exact (fetch_stretching_valueOk hok2 day).2
    · exact hok2
  have hok4 : CacheOkU u colls
      ((fetch_cool_downs u colls day
        ((if (get_component_durations (workoutDurationOf u)).include_stretching = true
          then fetch_stretching u colls day
            ((if (get_component_durations (workoutDurationOf u)).include_breathwork = true
              then fetch_breathwork (experienceLevelOf u) colls day
                (fetch_warm_ups u colls day c).2
              else ([], (fetch_warm_ups u colls day c).2)).2)
          else ([], (if (get_component_durations (workoutDurationOf u)).include_breathwork = true
              then fetch_breathwork (experienceLevelOf u) colls day
                (fetch_warm_ups u colls day c).2
              else ([], (fetch_warm_ups u colls day c).2)).2)).2)).2) :=
    (fetch_cool_downs_valueOk hok3 day).2
  constructor
  · simp only [build_day_parts]
    rw [(fetch_meditations_valueOk hok4 day).1]
    rw [execute_isEmpty _ _ (by decide)]
    cases hre : colls.meditation.isEmpty with
    | true => simp
    | false =>
      simp only [Bool.false_eq_true, ite_false]
      rw [prepare_meditation_isSome, execute_isEmpty _ _ (by decide), hre]
  · simp only [build_day_parts]
    exact (fetch_meditations_valueOk hok4 day).2

theorem bdp_mains_nil (rng : RNG) (u : RawUserData) (colls : Collections)
    (day : String) (c : Cache) (hnil : colls.exercises = []) :
    (build_day_parts rng u colls day c).1.main_exercises = [] := by
  have hfe : fetch_exercises rng u colls day = [] := by
    unfold fetch_exercises
    rw [hnil]
    simp [execute_empty_of_empty_repo]
  simp only [build_day_parts, hfe]
  simp

theorem bdp_mains_ne_nil (rng : RNG) (u : RawUserData) (colls : Collections)
    (day : String) (c : Cache) (hne : colls.exercises ≠ [])
    (hwf : exercisesWF colls) (hlvl : experienceLevelOf u ∈ DIFFICULTY_LEVELS) :
    (build_day_parts rng u colls day c).1.main_exercises ≠ [] := by
  have hexe : execute_query_with_fallbacks colls.exercises
      (exerciseQueries (experienceLevelOf u)
        (map_goals_to_valid_tags (goalsOf u) "exercises")) 5 ≠ [] :=
    execute_ne_nil _ hne (by decide)
  have hexe' : (execute_query_with_fallbacks colls.exercises
      (exerciseQueries (experienceLevelOf u)
        (map_goals_to_valid_tags (goalsOf u) "exercises")) 5).isEmpty = false := by
    cases h : (execute_query_with_fallbacks colls.exercises
        (exerciseQueries (experienceLevelOf u)
          (map_goals_to_valid_tags (goalsOf u) "exercises")) 5).isEmpty
    · rfl
    · exact absurd (List.isEmpty_iff.mp h) hexe
  have hfv : fetch_exercises rng u colls day =
      rng.sample (day ++ "_" ++ experienceLevelOf u)
        (min 5 (execute_query_with_fallbacks colls.exercises
          (exerciseQueries (experienceLevelOf u)
            (map_goals_to_valid_tags (goalsOf u) "exercises")) 5).length)
        (execute_query_with_fallbacks colls.exercises
          (exerciseQueries (experienceLevelOf u)
            (map_goals_to_valid_tags (goalsOf u) "exercises")) 5) := by
    unfold fetch_exercises
    simp only [hexe', Bool.false_eq_true, ite_false]
  have hlen : (fetch_exercises rng u colls day).length =
      min 5 (execute_query_with_fallbacks colls.exercises
        (exerciseQueries (experienceLevelOf u)
          (map_goals_to_valid_tags (goalsOf u) "exercises")) 5).length := by
    rw [hfv]
    exact rng.sample_length _ _ _ (min_le_right _ _)
  have hexlen : 0 < (execute_query_with_fallbacks colls.exercises
      (exerciseQueries (experienceLevelOf u)
        (map_goals_to_valid_tags (goalsOf u) "exercises")) 5).length :=
    List.length_pos.mpr hexe
  have hflen : 0 < (fetch_exercises rng u colls day).length := by
    rw [hlen]
    exact lt_min (by decide) hexlen
  have hcount : 0 < min (fetch_exercises rng u colls day).length
      (get_component_durations (workoutDurationOf u)).max_exercises :=
    lt_min hflen (max_exercises_pos _)
  have hsub : ∀ i ∈ fetch_exercises rng u colls day, i ∈ colls.exercises := by
    intro i hi
    rw [hfv] at hi
    exact execute_subset _ _ _ i (rng.sample_subset _ _ _ i hi)
  have hfne : fetch_exercises rng u colls day ≠ [] := by
    intro hc
    rw [hc] at hflen
    cases hflen
  simp only [build_day_parts, hcount, ite_true]
  exact prepare_exercise_ne_nil _ hfne hcount
    (fun i hi => hwf i (hsub i hi)) (level_mem_ne_empty hlvl)

theorem assemble_block_origin (rng : RNG) (u : RawUserData) (colls : Collections)
    (day : String) (c : Cache) (b : Block)
    (hb : b ∈ assemble_day (build_day_parts rng u colls day c).1) :
    ((build_day_parts rng u colls day c).1.warm_up = some b ∧
      b.activity.type = "warm_up") ∨
    ((build_day_parts rng u colls day c).1.breathwork = some b ∧
      b.activity.type = "breathwork") ∨
    (b ∈ (build_day_parts rng u colls day c).1.main_exercises ∧
      b.activity.type = "exercise") ∨
    ((build_day_parts rng u colls day c).1.stretching = some b ∧
      b.activity.type = "stretching") ∨
    ((build_day_parts rng u colls day c).1.cool_down = some b ∧
      b.activity.type = "cool_down") ∨
    ((build_day_parts rng u colls day c).1.meditation = some b ∧
      b.activity.type = "meditation") := by
  unfold assemble_day at hb
  simp only [List.mem_append] at hb
  rcases hb with ((((hb | hb) | hb) | hb) | hb) | hb
  · left
    cases hwo : (build_day_parts rng u colls day c).1.warm_up with
    | none => rw [hwo] at hb; cases hb
    | some w =>
      rw [hwo] at hb
      have hbw : b = w := by simpa using hb
      subst hbw
      exact ⟨rfl, (bdp_warm_spec hwo).2⟩
  · right; left
    cases hwo : (build_day_parts rng u colls day c).1.breathwork with
    | none => rw [hwo] at hb; cases hb
    | some w =>
      rw [hwo] at hb
      have hbw : b = w := by simpa using hb
      subst hbw
      exact ⟨rfl, (bdp_breath_spec hwo).2.1⟩
  · right; right; left
    exact ⟨hb, ((bdp_mains_spec rng u colls day c).1 b hb).2⟩
  · right; right; right; left
    cases hwo : (build_day_parts rng u colls day c).1.stretching with
    | none => rw [hwo] at hb; cases hb
    | some w =>
      rw [hwo] at hb
      have hbw : b = w := by simpa using hb
      subst hbw
      exact ⟨rfl, (bdp_stretch_spec hwo).2.1⟩
  · right; right; right; right; left
    cases hwo : (build_day_parts rng u colls day c).1.cool_down with
    | none => rw [hwo] at hb; cases hb
    | some w =>
      rw [hwo] at hb
      have hbw : b = w := by simpa using hb
      subst hbw
      exact ⟨rfl, (bdp_cool_spec hwo).2⟩
  · right; right; right; right; right
    cases hwo : (build_day_parts rng u colls day c).1.meditation with
    | none => rw [hwo] at hb; cases hb
    | some w =>
      rw [hwo] at hb
      have hbw : b = w := by simpa using hb
      subst hbw
      exact ⟨rfl, (bdp_med_spec hwo).2⟩

theorem mem_assemble_warm {p : DayParts} {b : Block} (h : p.warm_up = some b) :
    b ∈ assemble_day p := by
  unfold assemble_day; simp [h]

theorem mem_assemble_breath {p : DayParts} {b : Block} (h : p.breathwork = some b) :
    b ∈ assemble_day p := by
  unfold assemble_day; simp [h]

theorem mem_assemble_mains {p : DayParts} {b : Block} (h : b ∈ p.main_exercises) :
    b ∈ assemble_day p := by
  unfold assemble_day; simp [h]

theorem mem_assemble_stretch {p : DayParts} {b : Block} (h : p.stretching = some b) :
    b ∈ assemble_day p := by
  unfold assemble_day; simp [h]

theorem mem_assemble_cool {p : DayParts} {b : Block} (h : p.cool_down = some b) :
    b ∈ assemble_day p := by
  unfold assemble_day; simp [h]

theorem mem_assemble_med {p : DayParts} {b : Block} (h : p.meditation = some b) :
    b ∈ assemble_day p := by
  unfold assemble_day; simp [h]

theorem isEmpty_false_of_ne_nil {l : List Item} (h : l ≠ []) : l.isEmpty = false := by
  cases hb : l.isEmpty
  · rfl
  · exact absurd (List.isEmpty_iff.mp hb) h

theorem isEmpty_true_of_nil {l : List Item} (h : l = []) : l.isEmpty = true := by
  rw [h]; rfl

theorem day_category_facts (rng : RNG) (u : RawUserData) (colls : Collections)
    (day : String) (c : Cache) (hok : CacheOkU u colls c)
    (hwf : exercisesWF colls) (hlvl : experienceLevelOf u ∈ DIFFICULTY_LEVELS)
    (cat : Category) :
    (cat.repoOf colls = [] →
      ∀ b ∈ (create_day_schedule rng u colls false day c).1,
        b.activity.type ≠ cat.blockType) ∧
    (cat.repoOf colls ≠ [] →
      cat.includedAt (get_component_durations (workoutDurationOf u)) = true →
      ∃ b ∈ (create_day_schedule rng u colls false day c).1,
        b.activity.type = cat.blockType) := by
  have hred : (create_day_schedule rng u colls false day c).1 =
      assemble_day (build_day_parts rng u colls day c).1 := by
    simp [create_day_schedule]
  cases cat with
  | warm_ups =>
    constructor
    · intro hnil b hb htype
      rw [hred] at hb
      have hnil' : colls.warm_ups = [] := hnil
      have hnone : (build_day_parts rng u colls day c).1.warm_up.isSome = false := by
        rw [bdp_warm_isSome rng u colls day c hok, isEmpty_true_of_nil hnil']
        rfl
      rcases assemble_block_origin rng u colls day c b hb with
        ⟨h1, _⟩ | ⟨_, h2⟩ | ⟨_, h2⟩ | ⟨_, h2⟩ | ⟨_, h2⟩ | ⟨_, h2⟩
      · rw [h1] at hnone; cases hnone
      all_goals exact absurd (h2.symm.trans htype) (by decide)
    · intro hne _
      have hne' : colls.warm_ups ≠ [] := hne
      have hsome : (build_day_parts rng u colls day c).1.warm_up.isSome = true := by
        rw [bdp_warm_isSome rng u colls day c hok, isEmpty_false_of_ne_nil hne']
        rfl
      obtain ⟨b, hbs⟩ := Option.isSome_iff_exists.mp hsome
      exact ⟨b, hred ▸ mem_assemble_warm hbs, (bdp_warm_spec hbs).2⟩
  | breathwork =>
    constructor
    · intro hnil b hb htype
      rw [hred] at hb
      have hnil' : colls.breathwork = [] := hnil
      have hnone : (build_day_parts rng u colls day c).1.breathwork.isSome = false := by
        rw [bdp_breath_isSome rng u colls day c hok, isEmpty_true_of_nil hnil']
        simp
      rcases assemble_block_origin rng u colls day c b hb with
        ⟨_, h2⟩ | ⟨h1, _⟩ | ⟨_, h2⟩ | ⟨_, h2⟩ | ⟨_, h2⟩ | ⟨_, h2⟩
      · exact absurd (h2.symm.trans htype) (by decide)
      · rw [h1] at hnone; cases hnone
      all_goals exact absurd (h2.symm.trans htype) (by decide)
    · intro hne hinc
      have hne' : colls.breathwork ≠ [] := hne
      have hsome : (build_day_parts rng u colls day c).1.breathwork.isSome = true := by
        rw [bdp_breath_isSome rng u colls day c hok, isEmpty_false_of_ne_nil hne']
        rw [show Category.includedAt .breathwork
          (get_component_durations (workoutDurationOf u)) =
          (get_component_durations (workoutDurationOf u)).include_breathwork from rfl] at hinc
        rw [hinc]
        rfl
      obtain ⟨b, hbs⟩ := Option.isSome_iff_exists.mp hsome
      exact ⟨b, hred ▸ mem_assemble_breath hbs, (bdp_breath_spec hbs).2.1⟩
  | stretching =>
    constructor
    · intro hnil b hb htype
      rw [hred] at hb
      have hnil' : colls.stretching = [] := hnil
      have hnone : (build_day_parts rng u colls day c).1.stretching.isSome = false := by
        rw [bdp_stretch_isSome rng u colls day c hok, isEmpty_true_of_nil hnil']
        simp
      rcases assemble_block_origin rng u colls day c b hb with
        ⟨_, h2⟩ | ⟨_, h2⟩ | ⟨_, h2⟩ | ⟨h1, _⟩ | ⟨_, h2⟩ | ⟨_, h2⟩
      · exact absurd (h2.symm.trans htype) (by decide)
      · exact absurd (h2.symm.trans htype) (by decide)
      · exact absurd (h2.symm.trans htype) (by decide)
      · rw [h1] at hnone; cases hnone
      all_goals exact absurd (h2.symm.trans htype) (by decide)
    · intro hne hinc
      have hne' : colls.stretching ≠ [] := hne
      have hsome : (build_day_parts rng u colls day c).1.stretching.isSome = true := by
        rw [bdp_stretch_isSome rng u colls day c hok, isEmpty_false_of_ne_nil hne']
        rw [show Category.includedAt .stretching
          (get_component_durations (workoutDurationOf u)) =
          (get_component_durations (workoutDurationOf u)).include_stretching from rfl] at hinc
        rw [hinc]
        rfl
      obtain ⟨b, hbs⟩ := Option.isSome_iff_exists.mp hsome
      exact ⟨b, hred ▸ mem_assemble_stretch hbs, (bdp_stretch_spec hbs).2.1⟩
  | cool_downs =>
    constructor
    · intro hnil b hb htype
      rw [hred] at hb
      have hnil' : colls.cool_downs = [] := hnil
      have hnone : (build_day_parts rng u colls day c).1.cool_down.isSome = false := by
        rw [bdp_cool_isSome rng u colls day c hok, isEmpty_true_of_nil hnil']
        rfl
      rcases assemble_block_origin rng u colls day c b hb with
        ⟨_, h2⟩ | ⟨_, h2⟩ | ⟨_, h2⟩ | ⟨_, h2⟩ | ⟨h1, _⟩ | ⟨_, h2⟩
      · exact absurd (h2.symm.trans htype) (by decide)
      · exact absurd (h2.symm.trans htype) (by decide)
      · exact absurd (h2.symm.trans htype) (by decide)
      · exact absurd (h2.symm.trans htype) (by decide)
      · rw [h1] at hnone; cases hnone
      · exact absurd (h2.symm.trans htype) (by decide)
    · intro hne _
      have hne' : colls.cool_downs ≠ [] := hne
      have hsome : (build_day_parts rng u colls day c).1.cool_down.isSome = true := by
        rw [bdp_cool_isSome rng u colls day c hok, isEmpty_false_of_ne_nil hne']
        rfl
      obtain ⟨b, hbs⟩ := Option.isSome_iff_exists.mp hsome
      exact ⟨b, hred ▸ mem_assemble_cool hbs, (bdp_cool_spec hbs).2⟩
  | meditation =>
    constructor
    · intro hnil b hb htype
      rw [hred] at hb
      have hnil' : colls.meditation = [] := hnil
      have hnone : (build_day_parts rng u colls day c).1.meditation.isSome = false := by
        rw [(bdp_med_isSome rng u colls day c hok).1, isEmpty_true_of_nil hnil']
        rfl
      rcases assemble_block_origin rng u colls day c b hb with
        ⟨_, h2⟩ | ⟨_, h2⟩ | ⟨_, h2⟩ | ⟨_, h2⟩ | ⟨_, h2⟩ | ⟨h1, _⟩
      · exact absurd (h2.symm.trans htype) (by decide)
      · exact absurd (h2.symm.trans htype) (by decide)
      · exact absurd (h2.symm.trans htype) (by decide)
      · exact absurd (h2.symm.trans htype) (by decide)
      · exact absurd (h2.symm.trans htype) (by decide)
      · rw [h1] at hnone; cases hnone
    · intro hne _
      have hne' : colls.meditation ≠ [] := hne
      have hsome : (build_day_parts rng u colls day c).1.meditation.isSome = true := by
        rw [(bdp_med_isSome rng u colls day c hok).1, isEmpty_false_of_ne_nil hne']
        rfl
      obtain ⟨b, hbs⟩ := Option.isSome_iff_exists.mp hsome
      exact ⟨b, hred ▸ mem_assemble_med hbs, (bdp_med_spec hbs).2⟩
  | exercises =>
    constructor
    · intro hnil b hb htype
      rw [hred] at hb
      have hnil' : colls.exercises = [] := hnil
      have hmnil : (build_day_parts rng u colls day c).1.main_exercises = [] :=
        bdp_mains_nil rng u colls day c hnil'
      rcases assemble_block_origin rng u colls day c b hb with
        ⟨_, h2⟩ | ⟨_, h2⟩ | ⟨h1, _⟩ | ⟨_, h2⟩ | ⟨_, h2⟩ | ⟨_, h2⟩
      · exact absurd (h2.symm.trans htype) (by decide)
      · exact absurd (h2.symm.trans htype) (by decide)
      · rw [hmnil] at h1; cases h1
      all_goals exact absurd (h2.symm.trans htype) (by decide)
    · intro hne _
      have hne' : colls.exercises ≠ [] := hne
      have hmne : (build_day_parts rng u colls day c).1.main_exercises ≠ [] :=
        bdp_mains_ne_nil rng u colls day c hne' hwf hlvl
      obtain ⟨b, hbm⟩ := List.exists_mem_of_ne_nil _ hmne
      exact ⟨b, hred ▸ mem_assemble_mains hbm,
        ((bdp_mains_spec rng u colls day c).1 b hbm).2⟩

theorem create_day_schedule_cacheOk (rng : RNG) (u : RawUserData) (colls : Collections)
    (r : Bool) (day : String) (c : Cache) (hok : CacheOkU u colls c) :
    CacheOkU u colls (create_day_schedule rng u colls r day c).2 := by
  cases r with
  | true => exact hok
  | false =>
    simp only [create_day_schedule, Bool.false_eq_true, ite_false]
    exact (bdp_med_isSome rng u colls day c hok).2

theorem schedule_days_entries_ok (rng : RNG) (u : RawUserData) (colls : Collections)
    (dates : List String) (c : Cache) (hok : CacheOkU u colls c) :
    (∀ kv ∈ (schedule_days rng u colls dates c).1, ∃ c0 : Cache,
      CacheOkU u colls c0 ∧
      kv.2 = { type := if restDayMatches u.preferred_rest_day kv.1
                 then "Rest Day" else "Workout Day"
               schedule := (create_day_schedule rng u colls
                 (restDayMatches u.preferred_rest_day kv.1) kv.1 c0).1 }) ∧
    CacheOkU u colls (schedule_days rng u colls dates c).2 := by
  induction dates generalizing c with
  | nil => exact ⟨fun kv hkv => absurd hkv (List.not_mem_nil kv), hok⟩
  | cons date rest ih =>
    have hok1 : CacheOkU u colls (create_day_schedule rng u colls
        (restDayMatches u.preferred_rest_day date) date c).2 :=
      create_day_schedule_cacheOk rng u colls _ date c hok
    obtain ⟨ihm, ihok⟩ := ih _ hok1
    constructor
    · intro kv hkv
      simp only [schedule_days, List.mem_cons] at hkv
      cases hkv with
      | inl h => exact ⟨c, hok, by rw [h]⟩
      | inr h => exact ihm kv h
    · simpa only [schedule_days] using ihok

theorem level_mem {u : RawUserData}
    (hv : pyMemStr u.experience_level DIFFICULTY_LEVELS = true) :
    experienceLevelOf u ∈ DIFFICULTY_LEVELS := by
  unfold pyMemStr at hv
  unfold experienceLevelOf
  cases hw : u.experience_level with
  | none => rw [hw] at hv; cases hv
  | some v =>
    cases v with
    | vStr s => rw [hw] at hv; simpa using hv
    | vInt n => rw [hw] at hv; cases hv
    | vListStr l => rw [hw] at hv; cases hv

/-- C8 (amended): with a well-formed exercise collection, generation
never raises for a valid request even when whole categories are empty;
on every workout day, an empty category contributes no block of its
type, and every other category that has content AND whose component the
duration allocator includes (breathwork and stretching only at buckets
allotting them positive minutes) contributes a block of its type. -/
theorem claim_C8 (rng : RNG) (u : RawUserData) (colls : Collections) (now : String)
    (hv : validate_user_data u = .ok ())
    (hwf : exercisesWF colls) :
    ∃ (p : Plan) (c' : Cache),
      generate_weekly_plan rng u colls [] now = .ok (p, c') ∧
      ∀ kv ∈ p.schedule, kv.2.type = "Workout Day" →
        ∀ cat : Category,
          (cat.repoOf colls = [] →
            ∀ b ∈ kv.2.schedule, b.activity.type ≠ cat.blockType) ∧
          (cat.repoOf colls ≠ [] →
            cat.includedAt (get_component_durations (workoutDurationOf u)) = true →
            ∃ b ∈ kv.2.schedule, b.activity.type = cat.blockType) := by
  have hlvl : experienceLevelOf u ∈ DIFFICULTY_LEVELS :=
    level_mem ((validate_ok_iff u).mp hv).2.2.2.2.2.2.2.2.2.1
  refine ⟨_, _, by rw [generate_weekly_plan, hv], ?_⟩
  intro kv hkv htype cat
  simp only at hkv
  obtain ⟨c0, hok0, hkv2⟩ := (schedule_days_entries_ok rng u colls (dateRangeOf u) []
    (cacheOkU_nil u colls)).1 kv hkv
  cases hrd : restDayMatches u.preferred_rest_day kv.1 with
  | true =>
    exfalso
    rw [hkv2] at htype
    simp only [hrd, ite_true] at htype
    exact absurd htype (by decide)
  | false =>
    rw [hkv2]
    simp only [hrd]
    exact day_category_facts rng u colls kv.1 c0 hok0 hwf hlvl cat

/-- Witness for the amended C8 at a concrete request and repository. -/
theorem claim_C8_witness :
    ∃ (p : Plan) (c' : Cache),
      generate_weekly_plan rngModel u15 colls0 [] "t1" = .ok (p, c') ∧
      ∀ kv ∈ p.schedule, kv.2.type = "Workout Day" →
        ∀ cat : Category,
          (cat.repoOf colls0 = [] →
            ∀ b ∈ kv.2.schedule, b.activity.type ≠ cat.blockType) ∧
          (cat.repoOf colls0 ≠ [] →
            cat.includedAt (get_component_durations (workoutDurationOf u15)) = true →
            ∃ b ∈ kv.2.schedule, b.activity.type = cat.blockType) :=
  claim_C8 rngModel u15 colls0 "t1" (by rfl) (by unfold exercisesWF; decide)

/-- A repository with an empty breathwork collection but content in
every other category. -/
def collsNB : Collections := { colls0 with breathwork := [] }

/-- The plan generated for `u15` over `collsNB`. -/
def resNB : Plan × Cache :=
  match generate_weekly_plan rngModel u15 collsNB [] "t1" with
  | .ok r => r
  | .error _ =>
    ({ metadata := { generated_at := "", start_date := none, goals := [],
                     level := "", preferred_rest_day := none }, schedule := [] }, [])

/-- The day entry for `d1` of that plan. -/
def d1NB : DayEntry :=
  (List.lookup "d1" resNB.1.schedule).getD { type := "", schedule := [] }

/-- C8 counterexample: with the breathwork collection empty (the claim's
premise), the stretching collection HAS available content, yet the
15-minute workout day `d1` contains no stretching block — the duration
allocator excludes stretching at this bucket — so the day does not
contain blocks for every other category that has available content, as
the claim states. -/
theorem claim_C8_counterexample :
    collsNB.breathwork = [] ∧
    collsNB.stretching = [stR] ∧
    List.lookup "d1" resNB.1.schedule = some d1NB ∧
    d1NB.type = "Workout Day" ∧
    (∀ b ∈ d1NB.schedule, b.activity.type ≠ "stretching") :=
  ⟨by rfl, by rfl, by rfl, by rfl, by decide⟩

end Fitlistic
